import Mathlib

/-!
Shallow embedding of the cgroups-rs library core (controller file I/O,
per-subsystem `apply`, and the `Cgroup` aggregate) together with proofs
about the behaviour its specification describes.

Rust strings are modelled as `List Char`, `PathBuf` as a list of path
components, the kernel-side cgroup filesystem as a finite association
map from paths to file contents, plus finite error-injection maps that
model `File::create` / `File::open` failures (permission errors etc.).
Machine integers (`u64`, `i64`) are modelled as `Nat` / `Int` with
explicit range checks where the Rust code checks or wraps.
-/

deriving instance DecidableEq for Except

namespace CgroupsRs

/-- Characters of a Rust `&str` / `String`, modelled as a list of `Char`. -/
abbrev Chars := List Char

/-- Shorthand turning a Lean string literal into the character-list model. -/
def str (s : String) : Chars := s.data

/-- Whitespace test used by Rust's `str::trim` (ASCII fragment; the kernel
files at hand only ever contain ASCII). -/
def isWs (c : Char) : Bool := c = ' ' || c = '\t' || c = '\n' || c = '\r'

/-- Rust `str::trim`: strip leading and trailing whitespace. -/
def trimChars (cs : Chars) : Chars := ((cs.dropWhile isWs).reverse.dropWhile isWs).reverse

/-- Decimal digit to its character (`0 ↦ '0'`, ..., `9 ↦ '9'`). -/
def digitChar (d : Nat) : Char :=
  match d with
  | 0 => '0' | 1 => '1' | 2 => '2' | 3 => '3' | 4 => '4'
  | 5 => '5' | 6 => '6' | 7 => '7' | 8 => '8' | _ => '9'

/-- Uppercase hexadecimal digit to its character (for `{:X}` formatting). -/
def hexDigitChar (d : Nat) : Char :=
  match d with
  | 0 => '0' | 1 => '1' | 2 => '2' | 3 => '3' | 4 => '4'
  | 5 => '5' | 6 => '6' | 7 => '7' | 8 => '8' | 9 => '9'
  | 10 => 'A' | 11 => 'B' | 12 => 'C' | 13 => 'D' | 14 => 'E' | _ => 'F'

/-- Decimal value of a digit character. -/
def charVal (c : Char) : Nat := c.toNat - 48

/-- Decimal digit characters of `n`, most significant first (fuel-based
structural recursion so terms reduce in the kernel; `fuel ≥ n` suffices). -/
def natCharsAux : Nat → Nat → Chars
  | 0, _ => []
  | fuel + 1, n => if n = 0 then [] else natCharsAux fuel (n / 10) ++ [digitChar (n % 10)]

/-- Rust `u64::to_string` / `{}` formatting of an unsigned integer (decimal). -/
def natChars (n : Nat) : Chars :=
  if n = 0 then ['0'] else natCharsAux n n

/-- Rust `i64::to_string`. -/
def intChars (n : Int) : Chars :=
  if n < 0 then '-' :: natChars n.natAbs else natChars n.toNat

/-- Uppercase hex digit characters of `n`, most significant first. -/
def hexCharsAux : Nat → Nat → Chars
  | 0, _ => []
  | fuel + 1, n => if n = 0 then [] else hexCharsAux fuel (n / 16) ++ [hexDigitChar (n % 16)]

/-- Rust `format!("{:#08X}", v)`: `0x` followed by uppercase hex digits,
zero-padded so the whole string is at least 8 characters wide. -/
def hexFormat8 (n : Nat) : Chars :=
  let ds := if n = 0 then ['0'] else hexCharsAux n n
  let pad := List.replicate (6 - ds.length) '0'
  '0' :: 'x' :: (pad ++ ds)

/-- Accumulating fold used by Rust's integer `parse` over a digit string. -/
def digitsVal (cs : Chars) : Nat := cs.foldl (fun a c => 10 * a + charVal c) 0

/-- Rust `str::parse::<u64>`: optional `+` sign, then one or more ASCII
digits, failing on overflow past `u64::MAX`. -/
def parseU64? (cs : Chars) : Option Nat :=
  let ds := match cs with | '+' :: rest => rest | _ => cs
  if !ds.isEmpty && ds.all Char.isDigit && decide (digitsVal ds < 2 ^ 64) then
    some (digitsVal ds)
  else none

/-- Rust `str::parse::<i64>`: optional sign, then one or more ASCII digits,
failing outside the `i64` range. -/
def parseI64? (cs : Chars) : Option Int :=
  match cs with
  | '-' :: rest =>
    if !rest.isEmpty && rest.all Char.isDigit && decide (digitsVal rest ≤ 2 ^ 63) then
      some (-(digitsVal rest : Int))
    else none
  | '+' :: rest =>
    if !rest.isEmpty && rest.all Char.isDigit && decide (digitsVal rest < 2 ^ 63) then
      some ((digitsVal rest : Int))
    else none
  | _ =>
    if !cs.isEmpty && cs.all Char.isDigit && decide (digitsVal cs < 2 ^ 63) then
      some ((digitsVal cs : Int))
    else none

/-- The `i64 as u64` cast (two's-complement wrap). -/
def i64AsU64 (n : Int) : Nat := (n % (2 ^ 64 : Int)).toNat

/-- One component of a Rust `PathBuf`, as produced by `Path::components`:
the root directory, a literal `..`, or a normal name. (`.` components are
normalized away by Rust's component iterator and never arise here.) -/
inductive Comp
  | rootDir
  | parentDir
  | normal (s : Chars)
deriving DecidableEq, Repr

/-- A `PathBuf`, as its component list. -/
abbrev Path := List Comp

/-- Rust `PathBuf::push`: pushing an absolute path replaces `self`;
otherwise the new components are appended. No `..` normalization happens. -/
def pathPush (self other : Path) : Path :=
  match other with
  | Comp.rootDir :: _ => other
  | _ => self ++ other

/-- Rust `Path::starts_with`: literal component-wise prefix test.
`..` components are compared literally, not resolved. -/
def pathStartsWith : Path → Path → Bool
  | _, [] => true
  | [], _ :: _ => false
  | s :: ss, b :: bs => decide (s = b) && pathStartsWith ss bs

/-- Kernel/VFS interpretation of a path: `..` pops one directory (at the
root it stays at the root), a `rootDir` component restarts from the root.
Spec-side notion used to state what a "true descendant" is. -/
def resolveFrom (stack : List Chars) : Path → List Chars
  | [] => stack
  | Comp.rootDir :: rest => resolveFrom [] rest
  | Comp.parentDir :: rest => resolveFrom stack.dropLast rest
  | Comp.normal s :: rest => resolveFrom (stack ++ [s]) rest

/-- Directory a path actually denotes once the kernel resolves it. -/
def resolvePath (p : Path) : List Chars := resolveFrom [] p

/-- Spec-side: `p` truly denotes a directory at or below the one `base`
denotes, after `..` resolution. -/
def isRealDescendant (p base : Path) : Bool :=
  (resolvePath base).isPrefixOf (resolvePath p)

/-- The error kinds of `error.rs` (`ErrorKind`). The older revisions'
`CgroupError::Unknown` is modelled by `other`, its `WriteError`/`ReadError`/
`ParseError` by the corresponding kinds here. -/
inductive ErrorKind
  | writeFailed | readFailed | parseError | invalidOperation | invalidPath | other
deriving DecidableEq, Repr

/-- `error.rs`'s `Error`: a kind plus the optional underlying OS error
(modelled as its raw `errno`-style code). -/
structure Error where
  kind : ErrorKind
  cause : Option Nat
deriving DecidableEq, Repr

/-- `Error::new`. -/
def Error.mk' (k : ErrorKind) : Error := ⟨k, none⟩

/-- `Error::with_cause`. -/
def Error.withCause (k : ErrorKind) (os : Nat) : Error := ⟨k, some os⟩

/-- First value bound to a key in an association list over paths. -/
def assocGet {α : Type} : List (Path × α) → Path → Option α
  | [], _ => none
  | (k, v) :: rest, p => if k = p then some v else assocGet rest p

/-- Set the value bound to a key in an association list over paths. -/
def assocSet {α : Type} : List (Path × α) → Path → α → List (Path × α)
  | [], p, v => [(p, v)]
  | (k, w) :: rest, p, v =>
    if k = p then (p, v) :: rest else (k, w) :: assocSet rest p v

/-- The world outside the library: kernel file contents, plus finite
error-injection maps saying which paths `File::create` (write intent)
or `File::open` (read intent) fail on, and with which OS error code. -/
structure World where
  files : List (Path × Chars)
  createErr : List (Path × Nat)
  openErr : List (Path × Nat)
deriving DecidableEq, Repr

/-- `ControllerInternal::verify_path`: succeed iff the controller's `path`
literally starts with its `base`. -/
def verify_path (path base : Path) : Except Error Unit :=
  if pathStartsWith path base then Except.ok ()
  else Except.error (Error.mk' ErrorKind.invalidPath)

/-- `ControllerInternal::open_path`: join the relative file name onto the
controller's `path`, run `verify_path`, then (write intent) `File::create`
— which truncates, and can fail with an injected OS error — or (read
intent) `File::open` — which fails with an injected OS error, or with
`ENOENT` (code 2) when the file does not exist. Returns the opened full
path (standing for the `File` handle) and the possibly-updated world. -/
def open_path (path base : Path) (p : Chars) (w : Bool) (world : World) :
    Except Error Path × World :=
  let full := pathPush path [Comp.normal p]
  match verify_path path base with
  | Except.error e => (Except.error e, world)
  | Except.ok () =>
    if w then
      match assocGet world.createErr full with
      | some os => (Except.error (Error.withCause ErrorKind.writeFailed os), world)
      | none => (Except.ok full, { world with files := assocSet world.files full [] })
    else
      match assocGet world.openErr full with
      | some os => (Except.error (Error.withCause ErrorKind.readFailed os), world)
      | none =>
        match assocGet world.files full with
        | some _ => (Except.ok full, world)
        | none => (Except.error (Error.withCause ErrorKind.readFailed 2), world)

/-- `File::write_all` on a handle returned by `open_path`. -/
def write_all (h : Path) (content : Chars) (world : World) : World :=
  { world with files := assocSet world.files h content }

/-- `File::read_to_string` through a handle returned by `open_path`. -/
def read_handle (h : Path) (world : World) : Chars :=
  (assocGet world.files h).getD []

/-- The common setter shape: `open_path(name, true)` then `write_all`. -/
def writeFileAt (path base : Path) (p content : Chars) (world : World) :
    Except Error Unit × World :=
  match open_path path base p true world with
  | (Except.ok h, w1) => (Except.ok (), write_all h content w1)
  | (Except.error e, w1) => (Except.error e, w1)

/-- The common getter shape: `open_path(name, false)` then
`read_to_string`. Reading does not modify the world. -/
def readFileAt (path base : Path) (p : Chars) (world : World) :
    Except Error Chars :=
  match open_path path base p false world with
  | (Except.ok h, w1) => Except.ok (read_handle h w1)
  | (Except.error e, _) => Except.error e

/-- The `read_u64_from` helper repeated across the controller modules:
read the file, trim, parse as `u64` (parse failure is `ParseError`). -/
def readU64At (path base : Path) (p : Chars) (world : World) :
    Except Error Nat :=
  match readFileAt path base p world with
  | Except.error e => Except.error e
  | Except.ok s =>
    match parseU64? (trimChars s) with
    | some v => Except.ok v
    | none => Except.error (Error.mk' ErrorKind.parseError)

/-- `pid.rs`'s `PidMax`: contents of a `pids.max` file. -/
inductive PidMax
  | Max
  | Value (v : Int)
deriving DecidableEq, Repr

/-- Alias for `Char` usable where a `DeviceType` constructor of the same
name would otherwise shadow the character type. -/
abbrev RustChar := Char

/-- `devices.rs`'s `DeviceType`. -/
inductive DeviceType
  | All
  | Char
  | Block
deriving DecidableEq, Repr

/-- `DeviceType::to_char`. -/
def DeviceType.toChar : DeviceType → RustChar
  | .All => 'a'
  | .Char => 'c'
  | .Block => 'b'

/-- `DeviceType::from_char`. -/
def DeviceType.fromChar? : Option RustChar → Option DeviceType
  | some 'a' => some .All
  | some 'c' => some .Char
  | some 'b' => some .Block
  | _ => none

/-- `devices.rs`'s `DevicePermissions`. -/
inductive DevicePermissions
  | Read
  | Write
  | MkNod
deriving DecidableEq, Repr

/-- `DevicePermissions::to_char`. -/
def DevicePermissions.toChar : DevicePermissions → RustChar
  | .Read => 'r'
  | .Write => 'w'
  | .MkNod => 'm'

/-- `DevicePermissions::from_char`. -/
def DevicePermissions.fromChar? : RustChar → Option DevicePermissions
  | 'r' => some .Read
  | 'w' => some .Write
  | 'm' => some .MkNod
  | _ => none

/-- `DevicePermissions::is_valid`: nonempty and all of `r`/`w`/`m`. -/
def DevicePermissions.isValid (s : Chars) : Bool :=
  !s.isEmpty && s.all (fun c => c = 'r' || c = 'w' || c = 'm')

/-- `DevicePermissions::from_string` (assumes validity was checked). -/
def DevicePermissions.fromChars (s : Chars) : List DevicePermissions :=
  s.filterMap DevicePermissions.fromChar?

/-- `lib.rs`'s `MemoryResources`. -/
structure MemoryResources where
  update_values : Bool
  kernel_memory_limit : Nat
  memory_hard_limit : Nat
  memory_soft_limit : Nat
  kernel_tcp_memory_limit : Nat
  memory_swap_limit : Nat
  swappiness : Nat
deriving DecidableEq, Repr

/-- `lib.rs`'s `PidResources`. -/
structure PidResources where
  update_values : Bool
  maximum_number_of_processes : PidMax
deriving DecidableEq, Repr

/-- `lib.rs`'s `CpuResources`. -/
structure CpuResources where
  update_values : Bool
  cpus : Chars
  mems : Chars
  shares : Nat
  quota : Int
  period : Nat
  realtime_runtime : Int
  realtime_period : Nat
deriving DecidableEq, Repr

/-- `lib.rs`'s `DeviceResource`. -/
structure DeviceResource where
  allow : Bool
  devtype : DeviceType
  major : Int
  minor : Int
  access : List DevicePermissions
deriving DecidableEq, Repr

/-- `lib.rs`'s `DeviceResources`. -/
structure DeviceResources where
  update_values : Bool
  devices : List DeviceResource
deriving DecidableEq, Repr

/-- `lib.rs`'s `NetworkPriority`. -/
structure NetworkPriority where
  name : Chars
  priority : Nat
deriving DecidableEq, Repr

/-- `lib.rs`'s `NetworkResources`. -/
structure NetworkResources where
  update_values : Bool
  class_id : Nat
  priorities : List NetworkPriority
deriving DecidableEq, Repr

/-- `lib.rs`'s `HugePageResource`. -/
structure HugePageResource where
  size : Chars
  limit : Nat
deriving DecidableEq, Repr

/-- `lib.rs`'s `HugePageResources`. -/
structure HugePageResources where
  update_values : Bool
  limits : List HugePageResource
deriving DecidableEq, Repr

/-- `lib.rs`'s `BlkIoDeviceResource`. -/
structure BlkIoDeviceResource where
  major : Nat
  minor : Nat
  weight : Nat
  leaf_weight : Nat
deriving DecidableEq, Repr

/-- `lib.rs`'s `BlkIoDeviceThrottleResource`. -/
structure BlkIoDeviceThrottleResource where
  major : Nat
  minor : Nat
  rate : Nat
deriving DecidableEq, Repr

/-- `lib.rs`'s `BlkIoResources`. -/
structure BlkIoResources where
  update_values : Bool
  weight : Nat
  leaf_weight : Nat
  weight_device : List BlkIoDeviceResource
  throttle_read_bps_device : List BlkIoDeviceThrottleResource
  throttle_read_iops_device : List BlkIoDeviceThrottleResource
  throttle_write_bps_device : List BlkIoDeviceThrottleResource
  throttle_write_iops_device : List BlkIoDeviceThrottleResource
deriving DecidableEq, Repr

/-- `lib.rs`'s `Resources` aggregate. -/
structure Resources where
  memory : MemoryResources
  pid : PidResources
  cpu : CpuResources
  devices : DeviceResources
  network : NetworkResources
  hugepages : HugePageResources
  blkio : BlkIoResources
deriving DecidableEq, Repr

/-- `lib.rs`'s `Controllers` tag enumeration. -/
inductive Controllers
  | Pids | Mem | CpuSet | CpuAcct | Cpu | Devices | Freezer
  | NetCls | BlkIo | PerfEvent | NetPrio | HugeTlb | Rdma
deriving DecidableEq, Repr

/-- Splitting used by Rust `str::split` with a character predicate:
separators are dropped, empty pieces are kept. -/
def splitSep (p : Char → Bool) : Chars → List Chars
  | [] => [[]]
  | c :: rest =>
    if p c then [] :: splitSep p rest
    else
      match splitSep p rest with
      | g :: gs => (c :: g) :: gs
      | [] => [[c]]

/-- Rust `str::lines`: split on newline, dropping the final empty piece a
trailing newline produces and stripping a trailing carriage return from
each line. -/
def linesOf (cs : Chars) : List Chars :=
  if cs.isEmpty then []
  else
    let parts := splitSep (fun c => c = '\n') cs
    let parts := if cs.getLast? = some '\n' then parts.dropLast else parts
    parts.map (fun l => if l.getLast? = some '\r' then l.dropLast else l)

/-- `Controller::tasks` (the blanket impl in `lib.rs`): read the `tasks`
file; each line is trimmed and parsed as `u64` with malformed lines
degrading to pid `0`; any error reading the file degrades to `[]`. -/
def tasksAt (path base : Path) (w : World) : List Nat :=
  match readFileAt path base (str "tasks") w with
  | Except.error _ => []
  | Except.ok content => (linesOf content).map (fun l => (parseU64? (trimChars l)).getD 0)

/-- `pid.rs`'s `PidController`. -/
structure PidController where
  base : Path
  path : Path
deriving DecidableEq, Repr

/-- `PidController::set_pid_max`. -/
def PidController.set_pid_max (c : PidController) (max_pid : PidMax) (w : World) :
    Except Error Unit × World :=
  writeFileAt c.path c.base (str "pids.max")
    (match max_pid with
     | PidMax.Max => str "max"
     | PidMax.Value num => intChars num) w

/-- `PidController::get_pid_max`. -/
def PidController.get_pid_max (c : PidController) (w : World) : Except Error PidMax :=
  match readFileAt c.path c.base (str "pids.max") w with
  | Except.error e => Except.error e
  | Except.ok s =>
    if trimChars s = str "max" then Except.ok PidMax.Max
    else
      match parseI64? (trimChars s) with
      | some v => Except.ok (PidMax.Value v)
      | none => Except.error (Error.mk' ErrorKind.parseError)

/-- `PidController::apply` (`ControllerInternal` impl): if the pid section
is flagged, set `pids.max` ignoring the write result, then verify by
reading it back; a mismatch is `ErrorKind::Other`. -/
def PidController.apply (c : PidController) (res : Resources) (w : World) :
    Except Error Unit × World :=
  if res.pid.update_values then
    let w1 := (c.set_pid_max res.pid.maximum_number_of_processes w).2
    match c.get_pid_max w1 with
    | Except.error e => (Except.error e, w1)
    | Except.ok m =>
      if m = res.pid.maximum_number_of_processes then (Except.ok (), w1)
      else (Except.error (Error.mk' ErrorKind.other), w1)
  else (Except.ok (), w)

/-- `memory.rs`'s `MemController`. -/
structure MemController where
  base : Path
  path : Path
deriving DecidableEq, Repr

/-- `MemController::set_limit`. -/
def MemController.set_limit (c : MemController) (limit : Nat) (w : World) :
    Except Error Unit × World :=
  writeFileAt c.path c.base (str "memory.limit_in_bytes") (natChars limit) w

/-- `MemController::set_soft_limit`. -/
def MemController.set_soft_limit (c : MemController) (limit : Nat) (w : World) :
    Except Error Unit × World :=
  writeFileAt c.path c.base (str "memory.soft_limit_in_bytes") (natChars limit) w

/-- `MemController::set_kmem_limit`. -/
def MemController.set_kmem_limit (c : MemController) (limit : Nat) (w : World) :
    Except Error Unit × World :=
  writeFileAt c.path c.base (str "memory.kmem.limit_in_bytes") (natChars limit) w

/-- `MemController::set_memswap_limit`. -/
def MemController.set_memswap_limit (c : MemController) (limit : Nat) (w : World) :
    Except Error Unit × World :=
  writeFileAt c.path c.base (str "memory.memsw.limit_in_bytes") (natChars limit) w

/-- `MemController::set_tcp_limit`. -/
def MemController.set_tcp_limit (c : MemController) (limit : Nat) (w : World) :
    Except Error Unit × World :=
  writeFileAt c.path c.base (str "memory.kmem.tcp.limit_in_bytes") (natChars limit) w

/-- `MemController::set_swappiness`. -/
def MemController.set_swappiness (c : MemController) (swp : Nat) (w : World) :
    Except Error Unit × World :=
  writeFileAt c.path c.base (str "memory.swappiness") (natChars swp) w

/-- `MemController::apply`: if the memory section is flagged, issue the six
writes, each with its result discarded, and return `Ok(())`. -/
def MemController.apply (c : MemController) (res : Resources) (w : World) :
    Except Error Unit × World :=
  if res.memory.update_values then
    let w1 := (c.set_limit res.memory.memory_hard_limit w).2
    let w2 := (c.set_soft_limit res.memory.memory_soft_limit w1).2
    let w3 := (c.set_kmem_limit res.memory.kernel_memory_limit w2).2
    let w4 := (c.set_memswap_limit res.memory.memory_swap_limit w3).2
    let w5 := (c.set_tcp_limit res.memory.kernel_tcp_memory_limit w4).2
    let w6 := (c.set_swappiness res.memory.swappiness w5).2
    (Except.ok (), w6)
  else (Except.ok (), w)

/-- `cpu.rs`'s `CpuController` (carries a cgroup-v2 flag selecting the
shares file name). -/
structure CpuController where
  base : Path
  path : Path
  v2 : Bool
deriving DecidableEq, Repr

/-- File targeted by `set_shares`/`shares` (`cpu.weight` on v2). -/
def CpuController.sharesFile (c : CpuController) : Chars :=
  if c.v2 then str "cpu.weight" else str "cpu.shares"

/-- `CpuController::set_shares`. -/
def CpuController.set_shares (c : CpuController) (shares : Nat) (w : World) :
    Except Error Unit × World :=
  writeFileAt c.path c.base c.sharesFile (natChars shares) w

/-- `CpuController::shares`. -/
def CpuController.shares (c : CpuController) (w : World) : Except Error Nat :=
  readU64At c.path c.base c.sharesFile w

/-- `CpuController::set_cfs_period`. -/
def CpuController.set_cfs_period (c : CpuController) (us : Nat) (w : World) :
    Except Error Unit × World :=
  writeFileAt c.path c.base (str "cpu.cfs_period_us") (natChars us) w

/-- `CpuController::cfs_period`. -/
def CpuController.cfs_period (c : CpuController) (w : World) : Except Error Nat :=
  readU64At c.path c.base (str "cpu.cfs_period_us") w

/-- `CpuController::set_cfs_quota`. -/
def CpuController.set_cfs_quota (c : CpuController) (us : Nat) (w : World) :
    Except Error Unit × World :=
  writeFileAt c.path c.base (str "cpu.cfs_quota_us") (natChars us) w

/-- `CpuController::cfs_quota`. -/
def CpuController.cfs_quota (c : CpuController) (w : World) : Except Error Nat :=
  readU64At c.path c.base (str "cpu.cfs_quota_us") w

/-- `CpuController::apply`: if the cpu section is flagged, write and then
read back shares, CFS period and CFS quota in turn, failing with
`ErrorKind::Other` on the first read-back mismatch (the quota is cast
`i64 as u64` both when written and when compared). -/
def CpuController.apply (c : CpuController) (res : Resources) (w : World) :
    Except Error Unit × World :=
  if res.cpu.update_values then
    let w1 := (c.set_shares res.cpu.shares w).2
    match c.shares w1 with
    | Except.error e => (Except.error e, w1)
    | Except.ok v1 =>
      if v1 ≠ res.cpu.shares then (Except.error (Error.mk' ErrorKind.other), w1)
      else
        let w2 := (c.set_cfs_period res.cpu.period w1).2
        match c.cfs_period w2 with
        | Except.error e => (Except.error e, w2)
        | Except.ok v2 =>
          if v2 ≠ res.cpu.period then (Except.error (Error.mk' ErrorKind.other), w2)
          else
            let w3 := (c.set_cfs_quota (i64AsU64 res.cpu.quota) w2).2
            match c.cfs_quota w3 with
            | Except.error e => (Except.error e, w3)
            | Except.ok v3 =>
              if v3 ≠ i64AsU64 res.cpu.quota then (Except.error (Error.mk' ErrorKind.other), w3)
              else (Except.ok (), w3)
  else (Except.ok (), w)

/-- `net_cls.rs`'s `NetClsController`. -/
structure NetClsController where
  base : Path
  path : Path
deriving DecidableEq, Repr

/-- `NetClsController::set_class`: writes `format!("{:#08X}", class)`. -/
def NetClsController.set_class (c : NetClsController) (class_id : Nat) (w : World) :
    Except Error Unit × World :=
  writeFileAt c.path c.base (str "net_cls.classid") (hexFormat8 class_id) w

/-- `NetClsController::get_class`. -/
def NetClsController.get_class (c : NetClsController) (w : World) : Except Error Nat :=
  readU64At c.path c.base (str "net_cls.classid") w

/-- `NetClsController::apply`: if the network section is flagged, set the
class id ignoring the write result, then require `get_class` to return
exactly the requested id, else fail with `Unknown` (modelled `Other`). -/
def NetClsController.apply (c : NetClsController) (res : Resources) (w : World) :
    Except Error Unit × World :=
  if res.network.update_values then
    let w1 := (c.set_class res.network.class_id w).2
    match c.get_class w1 with
    | Except.ok v =>
      if v = res.network.class_id then (Except.ok (), w1)
      else (Except.error (Error.mk' ErrorKind.other), w1)
    | Except.error _ => (Except.error (Error.mk' ErrorKind.other), w1)
  else (Except.ok (), w)

/-- `cpuset.rs`'s `CpuSetController`. -/
structure CpuSetController where
  base : Path
  path : Path
deriving DecidableEq, Repr

/-- `CpuSetController::set_cpus`. -/
def CpuSetController.set_cpus (c : CpuSetController) (cpus : Chars) (w : World) :
    Except Error Unit × World :=
  writeFileAt c.path c.base (str "cpuset.cpus") cpus w

/-- `CpuSetController::set_mems`. -/
def CpuSetController.set_mems (c : CpuSetController) (mems : Chars) (w : World) :
    Except Error Unit × World :=
  writeFileAt c.path c.base (str "cpuset.mems") mems w

/-- `CpuSetController::apply`: if the (shared) cpu section is flagged,
write the cpu and memory node lists, results discarded. -/
def CpuSetController.apply (c : CpuSetController) (res : Resources) (w : World) :
    Except Error Unit × World :=
  if res.cpu.update_values then
    let w1 := (c.set_cpus res.cpu.cpus w).2
    let w2 := (c.set_mems res.cpu.mems w1).2
    (Except.ok (), w2)
  else (Except.ok (), w)

/-- `cpuacct.rs`'s `CpuAcctController` (its `apply` is a no-op). -/
structure CpuAcctController where
  base : Path
  path : Path
deriving DecidableEq, Repr

/-- `CpuAcctController::apply`: no-op. -/
def CpuAcctController.apply (_c : CpuAcctController) (_res : Resources) (w : World) :
    Except Error Unit × World :=
  (Except.ok (), w)

/-- `devices.rs`'s `DevicesController`. -/
structure DevicesController where
  base : Path
  path : Path
deriving DecidableEq, Repr

/-- The `format!("{} {}:{} {}", ...)` device-rule line, with `-1`
rendered as the `*` wildcard. -/
def deviceLine (devtype : DeviceType) (major minor : Int) (perm : List DevicePermissions) : Chars :=
  let perms := perm.map DevicePermissions.toChar
  let majorS := if major = -1 then ['*'] else intChars major
  let minorS := if minor = -1 then ['*'] else intChars minor
  [devtype.toChar, ' '] ++ majorS ++ [':'] ++ minorS ++ [' '] ++ perms

/-- `DevicesController::allow_device`. -/
def DevicesController.allow_device (c : DevicesController) (devtype : DeviceType)
    (major minor : Int) (perm : List DevicePermissions) (w : World) :
    Except Error Unit × World :=
  writeFileAt c.path c.base (str "devices.allow") (deviceLine devtype major minor perm) w

/-- `DevicesController::deny_device`. -/
def DevicesController.deny_device (c : DevicesController) (devtype : DeviceType)
    (major minor : Int) (perm : List DevicePermissions) (w : World) :
    Except Error Unit × World :=
  writeFileAt c.path c.base (str "devices.deny") (deviceLine devtype major minor perm) w

/-- `DevicesController::apply`: if the devices section is flagged, issue
one allow/deny write per listed rule, results discarded. -/
def DevicesController.apply (c : DevicesController) (res : Resources) (w : World) :
    Except Error Unit × World :=
  if res.devices.update_values then
    (Except.ok (), res.devices.devices.foldl (fun wa i =>
      if i.allow then (c.allow_device i.devtype i.major i.minor i.access wa).2
      else (c.deny_device i.devtype i.major i.minor i.access wa).2) w)
  else (Except.ok (), w)

/-- `freezer.rs`'s `FreezerController` (its `apply` is a no-op). -/
structure FreezerController where
  base : Path
  path : Path
deriving DecidableEq, Repr

/-- `FreezerController::apply`: no-op. -/
def FreezerController.apply (_c : FreezerController) (_res : Resources) (w : World) :
    Except Error Unit × World :=
  (Except.ok (), w)

/-- `blkio.rs`'s `BlkIoController`. -/
structure BlkIoController where
  base : Path
  path : Path
deriving DecidableEq, Repr

/-- `BlkIoController::set_weight` (the source writes `blkio.leaf_weight`
here as well). -/
def BlkIoController.set_weight (c : BlkIoController) (v : Nat) (w : World) :
    Except Error Unit × World :=
  writeFileAt c.path c.base (str "blkio.leaf_weight") (natChars v) w

/-- `BlkIoController::set_leaf_weight`. -/
def BlkIoController.set_leaf_weight (c : BlkIoController) (v : Nat) (w : World) :
    Except Error Unit × World :=
  writeFileAt c.path c.base (str "blkio.leaf_weight") (natChars v) w

/-- `BlkIoController::set_weight_for_device`. -/
def BlkIoController.set_weight_for_device (c : BlkIoController) (d : Chars) (w : World) :
    Except Error Unit × World :=
  writeFileAt c.path c.base (str "blkio.weight_device") d w

/-- The `format!("{}:{} {}", major, minor, rate)` throttle entry. -/
def throttleLine (major minor rate : Nat) : Chars :=
  natChars major ++ [':'] ++ natChars minor ++ [' '] ++ natChars rate

/-- `BlkIoController::throttle_read_bps_for_device`. -/
def BlkIoController.throttle_read_bps_for_device (c : BlkIoController)
    (major minor bps : Nat) (w : World) : Except Error Unit × World :=
  writeFileAt c.path c.base (str "blkio.throttle.read_bps_device") (throttleLine major minor bps) w

/-- `BlkIoController::throttle_read_iops_for_device`. -/
def BlkIoController.throttle_read_iops_for_device (c : BlkIoController)
    (major minor iops : Nat) (w : World) : Except Error Unit × World :=
  writeFileAt c.path c.base (str "blkio.throttle.read_iops_device") (throttleLine major minor iops) w

/-- `BlkIoController::throttle_write_bps_for_device`. -/
def BlkIoController.throttle_write_bps_for_device (c : BlkIoController)
    (major minor bps : Nat) (w : World) : Except Error Unit × World :=
  writeFileAt c.path c.base (str "blkio.throttle.write_bps_device") (throttleLine major minor bps) w

/-- `BlkIoController::throttle_write_iops_for_device`. -/
def BlkIoController.throttle_write_iops_for_device (c : BlkIoController)
    (major minor iops : Nat) (w : World) : Except Error Unit × World :=
  writeFileAt c.path c.base (str "blkio.throttle.write_iops_device") (throttleLine major minor iops) w

/-- `BlkIoController::apply`: if the blkio section is flagged, write the
weights and every listed per-device weight/throttle entry, results
discarded. -/
def BlkIoController.apply (c : BlkIoController) (res : Resources) (w : World) :
    Except Error Unit × World :=
  if res.blkio.update_values then
    let w1 := (c.set_weight res.blkio.weight w).2
    let w2 := (c.set_leaf_weight res.blkio.leaf_weight w1).2
    let w3 := res.blkio.weight_device.foldl (fun wa dev =>
      (c.set_weight_for_device (throttleLine dev.major dev.minor dev.weight) wa).2) w2
    let w4 := res.blkio.throttle_read_bps_device.foldl (fun wa dev =>
      (c.throttle_read_bps_for_device dev.major dev.minor dev.rate wa).2) w3
    let w5 := res.blkio.throttle_write_bps_device.foldl (fun wa dev =>
      (c.throttle_write_bps_for_device dev.major dev.minor dev.rate wa).2) w4
    let w6 := res.blkio.throttle_read_iops_device.foldl (fun wa dev =>
      (c.throttle_read_iops_for_device dev.major dev.minor dev.rate wa).2) w5
    let w7 := res.blkio.throttle_write_iops_device.foldl (fun wa dev =>
      (c.throttle_write_iops_for_device dev.major dev.minor dev.rate wa).2) w6
    (Except.ok (), w7)
  else (Except.ok (), w)

/-- `perf_event.rs`'s `PerfEventController` (its `apply` is a no-op). -/
structure PerfEventController where
  base : Path
  path : Path
deriving DecidableEq, Repr

/-- `PerfEventController::apply`: no-op. -/
def PerfEventController.apply (_c : PerfEventController) (_res : Resources) (w : World) :
    Except Error Unit × World :=
  (Except.ok (), w)

/-- `net_prio.rs`'s `NetPrioController`. -/
structure NetPrioController where
  base : Path
  path : Path
deriving DecidableEq, Repr

/-- `NetPrioController::set_if_prio`. -/
def NetPrioController.set_if_prio (c : NetPrioController) (eif : Chars) (prio : Nat)
    (w : World) : Except Error Unit × World :=
  writeFileAt c.path c.base (str "net_prio.ifpriomap") (eif ++ [' '] ++ natChars prio) w

/-- `NetPrioController::apply`: if the network section is flagged, write
one priority-map entry per listed interface, results discarded. -/
def NetPrioController.apply (c : NetPrioController) (res : Resources) (w : World) :
    Except Error Unit × World :=
  if res.network.update_values then
    (Except.ok (), res.network.priorities.foldl (fun wa i =>
      (c.set_if_prio i.name i.priority wa).2) w)
  else (Except.ok (), w)

/-- `hugetlb.rs`'s `HugeTlbController`. -/
structure HugeTlbController where
  base : Path
  path : Path
deriving DecidableEq, Repr

/-- The `hugetlb.<size>.limit_in_bytes` file name. -/
def hugeTlbLimitFile (size : Chars) : Chars :=
  str "hugetlb." ++ size ++ str ".limit_in_bytes"

/-- `HugeTlbController::set_limit_in_bytes`. -/
def HugeTlbController.set_limit_in_bytes (c : HugeTlbController) (size : Chars)
    (limit : Nat) (w : World) : Except Error Unit × World :=
  writeFileAt c.path c.base (hugeTlbLimitFile size) (natChars limit) w

/-- `HugeTlbController::limit_in_bytes`. -/
def HugeTlbController.limit_in_bytes (c : HugeTlbController) (size : Chars)
    (w : World) : Except Error Nat :=
  readU64At c.path c.base (hugeTlbLimitFile size) w

/-- The loop body of `HugeTlbController::apply`: per listed hugepage size,
write the limit ignoring the result, then verify by read-back. -/
def HugeTlbController.applyLoop (c : HugeTlbController) :
    List HugePageResource → World → Except Error Unit × World
  | [], w => (Except.ok (), w)
  | i :: rest, w =>
    let w1 := (c.set_limit_in_bytes i.size i.limit w).2
    match c.limit_in_bytes i.size w1 with
    | Except.error e => (Except.error e, w1)
    | Except.ok v =>
      if v ≠ i.limit then (Except.error (Error.mk' ErrorKind.other), w1)
      else c.applyLoop rest w1

/-- `HugeTlbController::apply`. -/
def HugeTlbController.apply (c : HugeTlbController) (res : Resources) (w : World) :
    Except Error Unit × World :=
  if res.hugepages.update_values then c.applyLoop res.hugepages.limits w
  else (Except.ok (), w)

/-- `rdma.rs`'s `RdmaController` (its `apply` is a no-op). -/
structure RdmaController where
  base : Path
  path : Path
deriving DecidableEq, Repr

/-- `RdmaController::apply`: no-op. -/
def RdmaController.apply (_c : RdmaController) (_res : Resources) (w : World) :
    Except Error Unit × World :=
  (Except.ok (), w)

/-- `lib.rs`'s `Subsystem`: the closed tagged union over the 13 controller
kinds. -/
inductive Subsystem
  | Pid (c : PidController)
  | Mem (c : MemController)
  | CpuSet (c : CpuSetController)
  | CpuAcct (c : CpuAcctController)
  | Cpu (c : CpuController)
  | Devices (c : DevicesController)
  | Freezer (c : FreezerController)
  | NetCls (c : NetClsController)
  | BlkIo (c : BlkIoController)
  | PerfEvent (c : PerfEventController)
  | NetPrio (c : NetPrioController)
  | HugeTlb (c : HugeTlbController)
  | Rdma (c : RdmaController)
deriving DecidableEq, Repr

/-- `to_controller().control_type()`: the tag of the variant. -/
def Subsystem.controlType : Subsystem → Controllers
  | .Pid _ => .Pids
  | .Mem _ => .Mem
  | .CpuSet _ => .CpuSet
  | .CpuAcct _ => .CpuAcct
  | .Cpu _ => .Cpu
  | .Devices _ => .Devices
  | .Freezer _ => .Freezer
  | .NetCls _ => .NetCls
  | .BlkIo _ => .BlkIo
  | .PerfEvent _ => .PerfEvent
  | .NetPrio _ => .NetPrio
  | .HugeTlb _ => .HugeTlb
  | .Rdma _ => .Rdma

/-- `Subsystem::enter`: clone the controller and push the group path onto
its `path` (its `base` is untouched). -/
def Subsystem.enter : Subsystem → Path → Subsystem
  | .Pid c, p => .Pid { c with path := pathPush c.path p }
  | .Mem c, p => .Mem { c with path := pathPush c.path p }
  | .CpuSet c, p => .CpuSet { c with path := pathPush c.path p }
  | .CpuAcct c, p => .CpuAcct { c with path := pathPush c.path p }
  | .Cpu c, p => .Cpu { c with path := pathPush c.path p }
  | .Devices c, p => .Devices { c with path := pathPush c.path p }
  | .Freezer c, p => .Freezer { c with path := pathPush c.path p }
  | .NetCls c, p => .NetCls { c with path := pathPush c.path p }
  | .BlkIo c, p => .BlkIo { c with path := pathPush c.path p }
  | .PerfEvent c, p => .PerfEvent { c with path := pathPush c.path p }
  | .NetPrio c, p => .NetPrio { c with path := pathPush c.path p }
  | .HugeTlb c, p => .HugeTlb { c with path := pathPush c.path p }
  | .Rdma c, p => .Rdma { c with path := pathPush c.path p }

/-- `to_controller().apply(res)`: dispatch to the variant's `apply`. -/
def Subsystem.apply : Subsystem → Resources → World → Except Error Unit × World
  | .Pid c, res, w => c.apply res w
  | .Mem c, res, w => c.apply res w
  | .CpuSet c, res, w => c.apply res w
  | .CpuAcct c, res, w => c.apply res w
  | .Cpu c, res, w => c.apply res w
  | .Devices c, res, w => c.apply res w
  | .Freezer c, res, w => c.apply res w
  | .NetCls c, res, w => c.apply res w
  | .BlkIo c, res, w => c.apply res w
  | .PerfEvent c, res, w => c.apply res w
  | .NetPrio c, res, w => c.apply res w
  | .HugeTlb c, res, w => c.apply res w
  | .Rdma c, res, w => c.apply res w

/-- `to_controller().tasks()`: dispatch the blanket `tasks` impl to the
variant's `path`/`base`. -/
def Subsystem.tasks : Subsystem → World → List Nat
  | .Pid c, w => tasksAt c.path c.base w
  | .Mem c, w => tasksAt c.path c.base w
  | .CpuSet c, w => tasksAt c.path c.base w
  | .CpuAcct c, w => tasksAt c.path c.base w
  | .Cpu c, w => tasksAt c.path c.base w
  | .Devices c, w => tasksAt c.path c.base w
  | .Freezer c, w => tasksAt c.path c.base w
  | .NetCls c, w => tasksAt c.path c.base w
  | .BlkIo c, w => tasksAt c.path c.base w
  | .PerfEvent c, w => tasksAt c.path c.base w
  | .NetPrio c, w => tasksAt c.path c.base w
  | .HugeTlb c, w => tasksAt c.path c.base w
  | .Rdma c, w => tasksAt c.path c.base w

/-- `From<&Subsystem> for &PidController` (`pid.rs`): `none` models the
unreachable unsafe fallback arm. -/
def pidFrom? : Subsystem → Option PidController
  | .Pid c => some c
  | _ => none

/-- `From<&Subsystem> for &MemController`: `none` is the fallback arm. -/
def memFrom? : Subsystem → Option MemController
  | .Mem c => some c
  | _ => none

/-- `From<&Subsystem> for &CpuSetController`: `none` is the fallback arm. -/
def cpuSetFrom? : Subsystem → Option CpuSetController
  | .CpuSet c => some c
  | _ => none

/-- `From<&Subsystem> for &CpuAcctController`: `none` is the fallback arm. -/
def cpuAcctFrom? : Subsystem → Option CpuAcctController
  | .CpuAcct c => some c
  | _ => none

/-- `From<&Subsystem> for &CpuController`: `none` is the fallback arm. -/
def cpuFrom? : Subsystem → Option CpuController
  | .Cpu c => some c
  | _ => none

/-- `From<&Subsystem> for &DevicesController`: `none` is the fallback arm. -/
def devicesFrom? : Subsystem → Option DevicesController
  | .Devices c => some c
  | _ => none

/-- `From<&Subsystem> for &FreezerController`: `none` is the fallback arm. -/
def freezerFrom? : Subsystem → Option FreezerController
  | .Freezer c => some c
  | _ => none

/-- `From<&Subsystem> for &NetClsController`: `none` is the fallback arm. -/
def netClsFrom? : Subsystem → Option NetClsController
  | .NetCls c => some c
  | _ => none

/-- `From<&Subsystem> for &BlkIoController`: `none` is the fallback arm. -/
def blkIoFrom? : Subsystem → Option BlkIoController
  | .BlkIo c => some c
  | _ => none

/-- `From<&Subsystem> for &PerfEventController`: `none` is the fallback arm. -/
def perfEventFrom? : Subsystem → Option PerfEventController
  | .PerfEvent c => some c
  | _ => none

/-- `From<&Subsystem> for &NetPrioController`: `none` is the fallback arm. -/
def netPrioFrom? : Subsystem → Option NetPrioController
  | .NetPrio c => some c
  | _ => none

/-- `From<&Subsystem> for &HugeTlbController`: `none` is the fallback arm. -/
def hugeTlbFrom? : Subsystem → Option HugeTlbController
  | .HugeTlb c => some c
  | _ => none

/-- `From<&Subsystem> for &RdmaController`: `none` is the fallback arm. -/
def rdmaFrom? : Subsystem → Option RdmaController
  | .Rdma c => some c
  | _ => none

/-- `cgroup.rs`'s `Cgroup`: the list of active subsystems of one group
(the hierarchy handle plays no role in the modelled operations except
`remove_task`, which is out of scope here). -/
structure Cgroup where
  subsystems : List Subsystem
deriving DecidableEq, Repr

/-- The `try_fold` at the heart of `Cgroup::apply`: invoke each
subsystem's `apply` in list order, stopping at the first error. -/
def applyList : List Subsystem → Resources → World → Except Error Unit × World
  | [], _, w => (Except.ok (), w)
  | s :: rest, res, w =>
    match s.apply res w with
    | (Except.ok _, w1) => applyList rest res w1
    | (Except.error e, w1) => (Except.error e, w1)

/-- `Cgroup::apply`. -/
def Cgroup.apply (cg : Cgroup) (res : Resources) (w : World) :
    Except Error Unit × World :=
  applyList cg.subsystems res w

/-- Rust `Vec::dedup`: drop consecutive duplicate elements. -/
def dedupAdj : List Nat → List Nat
  | [] => []
  | [a] => [a]
  | a :: b :: rest =>
    if a = b then dedupAdj (b :: rest) else a :: dedupAdj (b :: rest)

/-- `Cgroup::tasks`: concatenate every subsystem's task list, sort
(`Vec::sort`), and drop consecutive duplicates (`Vec::dedup`). -/
def Cgroup.tasks (cg : Cgroup) (w : World) : List Nat :=
  let v := cg.subsystems.foldl (fun acc s => acc ++ s.tasks w) []
  dedupAdj (List.insertionSort (· ≤ ·) v)

/-- The search loop of `Cgroup::controller_of::<T>`: the first subsystem
whose `control_type()` equals the requested tag. -/
def findTag (t : Controllers) : List Subsystem → Option Subsystem
  | [] => none
  | s :: rest => if s.controlType = t then some s else findTag t rest

/-- `Cgroup::controller_of::<T>`, parametrized by `T`'s tag and its
`From<&Subsystem>` conversion: the outer `Option` is the loop's result
(`None` = no variant matched), the inner one is the conversion, whose
`none` stands for the unsafe/panicking fallback arm. -/
def Cgroup.controller_of {T : Type} (cg : Cgroup) (tag : Controllers)
    (conv : Subsystem → Option T) : Option (Option T) :=
  (findTag tag cg.subsystems).map conv

/-- The per-line parse inside `DevicesController::allowed_devices`: split
on spaces and colons, require exactly 4 fields, device type from the
FIRST character of field 0, major/minor parsed as `i64` with `*` meaning
`-1`, permissions validated then decoded. -/
def parseDevLine (line : Chars) : Option DeviceResource :=
  let ls := splitSep (fun c => c = ' ' || c = ':') line
  if ls.length ≠ 4 then none
  else
    let devtype := DeviceType.fromChar? (ls[0]!.head?)
    let major := match parseI64? ls[1]! with
      | some v => some v
      | none => if ls[1]! = ['*'] then some (-1) else none
    let minor := match parseI64? ls[2]! with
      | some v => some v
      | none => if ls[2]! = ['*'] then some (-1) else none
    match devtype, major, minor with
    | some t, some ma, some mi =>
      if DevicePermissions.isValid ls[3]! then
        some ⟨true, t, ma, mi, DevicePermissions.fromChars ls[3]!⟩
      else none
    | _, _, _ => none

/-- One step of the fold over lines in `allowed_devices`: an already-failed
accumulator stays failed, a line that fails to parse fails the whole read,
otherwise the parsed rule is appended. -/
def devStep (acc : Except Error (List DeviceResource)) (line : Chars) :
    Except Error (List DeviceResource) :=
  match acc with
  | Except.error e => Except.error e
  | Except.ok v =>
    match parseDevLine line with
    | none => Except.error (Error.mk' ErrorKind.parseError)
    | some r => Except.ok (v ++ [r])

/-- The fold over lines in `DevicesController::allowed_devices`: any line
that fails to parse makes the whole read a `ParseError`; otherwise one
`DeviceResource` per line. -/
def devListParse (s : Chars) : Except Error (List DeviceResource) :=
  (linesOf s).foldl devStep (Except.ok [])

/-- Spec-side (amended wording of the device-list line format): splitting
on spaces and colons yields exactly four fields; the first character of
the type field is `a`, `b` or `c` (trailing characters are ignored); the
major and minor fields are each a decimal (optionally signed) integer in
`i64` range or the `*` wildcard; the permission field is a nonempty
string over `r`/`w`/`m`. -/
def devLineWellFormed (line : Chars) : Bool :=
  let ls := splitSep (fun c => c = ' ' || c = ':') line
  decide (ls.length = 4)
  && (match ls[0]!.head? with
      | some c => c = 'a' || c = 'b' || c = 'c'
      | none => false)
  && (decide (ls[1]! = ['*']) || (parseI64? ls[1]!).isSome)
  && (decide (ls[2]! = ['*']) || (parseI64? ls[2]!).isSome)
  && DevicePermissions.isValid ls[3]!

/-- Spec-side: the per-subsystem update-intent flag `apply` consults
(subsystems whose `apply` never writes have no section: `false`). -/
def Subsystem.updateFlag : Subsystem → Resources → Bool
  | .Pid _, res => res.pid.update_values
  | .Mem _, res => res.memory.update_values
  | .CpuSet _, res => res.cpu.update_values
  | .CpuAcct _, _ => false
  | .Cpu _, res => res.cpu.update_values
  | .Devices _, res => res.devices.update_values
  | .Freezer _, _ => false
  | .NetCls _, res => res.network.update_values
  | .BlkIo _, res => res.blkio.update_values
  | .PerfEvent _, _ => false
  | .NetPrio _, res => res.network.update_values
  | .HugeTlb _, res => res.hugepages.update_values
  | .Rdma _, _ => false

/-- Spec-side: an `open_path` outcome that failed the containment check. -/
def failsContainment (r : Except Error Path × World) : Prop :=
  ∃ e, r.1 = Except.error e ∧ e.kind = ErrorKind.invalidPath

/-! ### Concrete fixtures used by witness theorems -/

/-- A world with no files and no injected errors. -/
def emptyWorld : World := ⟨[], [], []⟩

/-- A resource specification with every update-intent flag unset. -/
def resAllOff : Resources :=
  ⟨⟨false, 0, 0, 0, 0, 0, 0⟩, ⟨false, PidMax.Max⟩, ⟨false, [], [], 0, 0, 0, 0, 0⟩,
   ⟨false, []⟩, ⟨false, 0, []⟩, ⟨false, []⟩, ⟨false, 0, 0, [], [], [], [], []⟩⟩

/-- Resources requesting only a net_cls class id of 1. -/
def resNetClsOn : Resources := { resAllOff with network := ⟨true, 1, []⟩ }

/-- Resources requesting only `pids.max = 7`. -/
def resPidValue7 : Resources := { resAllOff with pid := ⟨true, PidMax.Value 7⟩ }

/-- Resources requesting only a memory hard limit of 1234 bytes. -/
def resMemOn : Resources := { resAllOff with memory := ⟨true, 0, 1234, 0, 0, 0, 0⟩ }

/-- A pids controller sitting at its base directory. -/
def pidC0 : PidController := ⟨[Comp.normal (str "pids")], [Comp.normal (str "pids")]⟩

/-- A memory controller sitting at its base directory. -/
def memC0 : MemController := ⟨[Comp.normal (str "memory")], [Comp.normal (str "memory")]⟩

/-- A net_cls controller sitting at its base directory. -/
def netC0 : NetClsController := ⟨[Comp.normal (str "net_cls")], [Comp.normal (str "net_cls")]⟩

/-- A freezer controller sitting at its base directory. -/
def frzC0 : FreezerController := ⟨[Comp.normal (str "freezer")], [Comp.normal (str "freezer")]⟩

/-- The `pids.max` file of `pidC0`. -/
def pidsMaxPath : Path := [Comp.normal (str "pids"), Comp.normal (str "pids.max")]

/-- The `net_cls.classid` file of `netC0`. -/
def netClsFilePath : Path := [Comp.normal (str "net_cls"), Comp.normal (str "net_cls.classid")]

/-- The `memory.limit_in_bytes` file of `memC0`. -/
def memLimitPath : Path := [Comp.normal (str "memory"), Comp.normal (str "memory.limit_in_bytes")]

/-- A world where `memory.limit_in_bytes` holds `0` and writing it fails
with an injected permission error (OS error 13). -/
def memCEWorld : World := ⟨[(memLimitPath, str "0")], [(memLimitPath, 13)], []⟩

/-- `DevicesController::allowed_devices`: read `devices.list` and parse. -/
def DevicesController.allowed_devices (c : DevicesController) (w : World) :
    Except Error (List DeviceResource) :=
  match readFileAt c.path c.base (str "devices.list") w with
  | Except.error e => Except.error e
  | Except.ok s => devListParse s

/-! ### Helper lemmas -/

theorem assocGet_assocSet_self {α : Type} (l : List (Path × α)) (k : Path) (v : α) :
    assocGet (assocSet l k v) k = some v := by
  induction l with
  | nil => simp [assocGet, assocSet]
  | cons hd tl ih =>
    obtain ⟨k', v'⟩ := hd
    by_cases h : k' = k
    · simp [assocSet, assocGet, h]
    · simp [assocSet, assocGet, h, ih]

theorem assocGet_assocSet_ne {α : Type} (l : List (Path × α)) (k k' : Path) (v : α)
    (h : k' ≠ k) : assocGet (assocSet l k v) k' = assocGet l k' := by
  have hne : k ≠ k' := fun he => h he.symm
  induction l with
  | nil => simp [assocGet, assocSet, hne]
  | cons hd tl ih =>
    obtain ⟨ka, va⟩ := hd
    by_cases hk : ka = k
    · subst hk
      simp [assocSet, assocGet, hne]
    · by_cases hk' : ka = k'
      · subst hk'
        simp [assocSet, assocGet, hk]
      · simp [assocSet, assocGet, hk, hk', ih]

theorem dropWhile_all_false {p : Char → Bool} :
    ∀ cs : Chars, (∀ c ∈ cs, p c = false) → cs.dropWhile p = cs
  | [], _ => rfl
  | c :: rest, h => by
    have hc : p c = false := h c (by simp)
    simp [List.dropWhile, hc]

theorem trimChars_eq_self (cs : Chars) (h : ∀ c ∈ cs, isWs c = false) :
    trimChars cs = cs := by
  unfold trimChars
  rw [dropWhile_all_false cs h]
  rw [dropWhile_all_false cs.reverse (fun c hc => h c (List.mem_reverse.mp hc))]
  exact List.reverse_reverse cs

theorem digitChar_not_ws (d : Nat) : isWs (digitChar d) = false := by
  unfold digitChar
  split <;> decide

theorem digitChar_isDigit (d : Nat) : (digitChar d).isDigit = true := by
  unfold digitChar
  split <;> decide

theorem digitChar_ne_m (d : Nat) : digitChar d ≠ 'm' := by
  unfold digitChar
  split <;> decide

theorem charVal_digitChar (d : Nat) (h : d < 10) : charVal (digitChar d) = d := by
  interval_cases d <;> decide

theorem natCharsAux_mem (fuel : Nat) :
    ∀ (n : Nat), ∀ c ∈ natCharsAux fuel n, ∃ d, d < 10 ∧ c = digitChar d := by
  induction fuel with
  | zero => intro n c hc; simp [natCharsAux] at hc
  | succ f ih =>
    intro n c hc
    unfold natCharsAux at hc
    by_cases h : n = 0
    · simp [h] at hc
    · simp only [h, if_false, List.mem_append, List.mem_singleton] at hc
      rcases hc with hc | hc
      · exact ih _ c hc
      · exact ⟨n % 10, Nat.mod_lt _ (by norm_num), hc⟩

theorem natChars_mem (n : Nat) : ∀ c ∈ natChars n, ∃ d, d < 10 ∧ c = digitChar d := by
  intro c hc
  unfold natChars at hc
  by_cases h : n = 0
  · simp [h] at hc
    exact ⟨0, by norm_num, by rw [hc]; rfl⟩
  · simp only [h, if_false] at hc
    exact natCharsAux_mem n n c hc

theorem natChars_ne_nil (n : Nat) : natChars n ≠ [] := by
  unfold natChars
  by_cases h : n = 0
  · simp [h]
  · simp only [h, if_false]
    cases n with
    | zero => exact absurd rfl h
    | succ m =>
      unfold natCharsAux
      simp [h]

theorem natChars_all_digit (n : Nat) : ∀ c ∈ natChars n, c.isDigit = true := by
  intro c hc
  obtain ⟨d, _, rfl⟩ := natChars_mem n c hc
  exact digitChar_isDigit d

theorem natChars_not_ws (n : Nat) : ∀ c ∈ natChars n, isWs c = false := by
  intro c hc
  obtain ⟨d, _, rfl⟩ := natChars_mem n c hc
  exact digitChar_not_ws d

theorem intChars_not_ws (n : Int) : ∀ c ∈ intChars n, isWs c = false := by
  intro c hc
  unfold intChars at hc
  by_cases h : n < 0
  · simp [h] at hc
    rcases hc with rfl | hc
    · decide
    · exact natChars_not_ws _ c hc
  · simp [h] at hc
    exact natChars_not_ws _ c hc

theorem intChars_ne_max (n : Int) : intChars n ≠ str "max" := by
  intro he
  have hm : 'm' ∈ intChars n := by
    rw [he]
    decide
  unfold intChars at hm
  by_cases h : n < 0
  · simp only [h, if_true, List.mem_cons] at hm
    rcases hm with hm | hm
    · exact absurd hm (by decide)
    · obtain ⟨d, _, hd⟩ := natChars_mem _ 'm' hm
      exact absurd hd.symm (digitChar_ne_m d)
  · simp only [h, if_false] at hm
    obtain ⟨d, _, hd⟩ := natChars_mem _ 'm' hm
    exact absurd hd.symm (digitChar_ne_m d)

theorem digitsVal_append_digit (l : Chars) (c : Char) :
    digitsVal (l ++ [c]) = 10 * digitsVal l + charVal c := by
  simp [digitsVal, List.foldl_append]

theorem digitsVal_natCharsAux (fuel : Nat) :
    ∀ n : Nat, n ≤ fuel → digitsVal (natCharsAux fuel n) = n := by
  induction fuel with
  | zero =>
    intro n hn
    interval_cases n
    simp [natCharsAux, digitsVal]
  | succ f ih =>
    intro n hn
    unfold natCharsAux
    by_cases h0 : n = 0
    · simp [h0, digitsVal]
    · simp only [h0, if_false]
      rw [digitsVal_append_digit, ih (n / 10) (by omega)]
      rw [charVal_digitChar _ (Nat.mod_lt _ (by norm_num))]
      omega

theorem digitsVal_natChars (n : Nat) : digitsVal (natChars n) = n := by
  unfold natChars
  by_cases h : n = 0
  · simp [h, digitsVal, charVal]
  · simp only [h, if_false]
    exact digitsVal_natCharsAux n n (le_refl n)

theorem natChars_head_digit (n : Nat) (c : Char) (rest : Chars)
    (hh : natChars n = c :: rest) : c.isDigit = true :=
  natChars_all_digit n c (by rw [hh]; simp)

theorem parseU64_natChars (n : Nat) (h : n < 2 ^ 64) :
    parseU64? (natChars n) = some n := by
  obtain ⟨c, rest, hh⟩ := List.exists_cons_of_ne_nil (natChars_ne_nil n)
  have hcd := natChars_head_digit n c rest hh
  have hcp : c ≠ '+' := fun he => absurd (he ▸ hcd) (by decide)
  have hall : (c :: rest).all Char.isDigit = true := by
    rw [← hh]
    exact List.all_eq_true.mpr (fun x hx => natChars_all_digit n x hx)
  have hdv : digitsVal (c :: rest) = n := by rw [← hh]; exact digitsVal_natChars n
  rw [hh]
  unfold parseU64?
  split
  · rename_i heq
    cases heq
    exact absurd rfl hcp
  · have hc1 : (!(c :: rest).isEmpty) = true := rfl
    have hc3 : decide (digitsVal (c :: rest) < 2 ^ 64) = true := by
      rw [hdv]
      exact decide_eq_true h
    show (if (!List.isEmpty (c :: rest) && List.all (c :: rest) Char.isDigit
          && decide (digitsVal (c :: rest) < 2 ^ 64)) = true
        then some (digitsVal (c :: rest)) else none) = some n
    rw [hc1, hall, hc3]
    show some (digitsVal (c :: rest)) = some n
    rw [hdv]

theorem parseI64_intChars (n : Int) (h1 : -(2 ^ 63 : Int) ≤ n) (h2 : n < 2 ^ 63) :
    parseI64? (intChars n) = some n := by
  by_cases hneg : n < 0
  · have hi : intChars n = '-' :: natChars n.natAbs := by simp [intChars, hneg]
    have habs' : n.natAbs ≤ 2 ^ 63 := by omega
    have hc1 : (!(natChars n.natAbs).isEmpty) = true := by
      cases hh : natChars n.natAbs with
      | nil => exact absurd hh (natChars_ne_nil _)
      | cons a b => rfl
    have hall : (natChars n.natAbs).all Char.isDigit = true :=
      List.all_eq_true.mpr (fun x hx => natChars_all_digit _ x hx)
    have hcast : -((n.natAbs : Nat) : Int) = n := by omega
    rw [hi]
    unfold parseI64?
    split
    · rename_i heq
      cases heq
      have hc3 : decide (digitsVal (natChars n.natAbs) ≤ 2 ^ 63) = true := by
        rw [digitsVal_natChars]
        exact decide_eq_true habs'
      rw [hc1, hall, hc3]
      show some (-(digitsVal (natChars n.natAbs) : Int)) = some n
      rw [digitsVal_natChars]
      exact congrArg some hcast
    · rename_i heq
      injection heq with hx hy
      exact absurd hx (by decide)
    · rename_i h1 h2
      exact (h1 (natChars n.natAbs) rfl).elim
  · push_neg at hneg
    have hi : intChars n = natChars n.toNat := by simp [intChars, not_lt.mpr hneg]
    have hlt : n.toNat < 2 ^ 63 := by omega
    obtain ⟨c, rest, hh⟩ := List.exists_cons_of_ne_nil (natChars_ne_nil n.toNat)
    have hcd := natChars_head_digit n.toNat c rest hh
    have hcm : c ≠ '-' := fun he => absurd (he ▸ hcd) (by decide)
    have hcp : c ≠ '+' := fun he => absurd (he ▸ hcd) (by decide)
    have hall : (c :: rest).all Char.isDigit = true := by
      rw [← hh]
      exact List.all_eq_true.mpr (fun x hx => natChars_all_digit _ x hx)
    have hdv : digitsVal (c :: rest) = n.toNat := by rw [← hh]; exact digitsVal_natChars _
    have hcast : ((n.toNat : Nat) : Int) = n := by omega
    rw [hi, hh]
    unfold parseI64?
    split
    · rename_i heq
      injection heq with hx hy
      exact absurd hx hcm
    · rename_i heq
      injection heq with hx hy
      exact absurd hx hcp
    · have hc1 : (!(c :: rest).isEmpty) = true := rfl
      have hc3 : decide (digitsVal (c :: rest) < 2 ^ 63) = true := by
        rw [hdv]
        exact decide_eq_true hlt
      rw [hc1, hall, hc3]
      show some ((digitsVal (c :: rest) : Nat) : Int) = some n
      rw [hdv]
      exact congrArg some hcast

theorem open_path_not_startsWith (path base : Path) (p : Chars) (intent : Bool)
    (world : World) (h : pathStartsWith path base = false) :
    open_path path base p intent world
      = (Except.error (Error.mk' ErrorKind.invalidPath), world) := by
  unfold open_path verify_path
  rw [h]
  rfl

theorem open_path_write_eq (path base : Path) (p : Chars) (world : World)
    (h : pathStartsWith path base = true) :
    open_path path base p true world =
      match assocGet world.createErr (pathPush path [Comp.normal p]) with
      | some os => (Except.error (Error.withCause ErrorKind.writeFailed os), world)
      | none => (Except.ok (pathPush path [Comp.normal p]),
          { world with files := assocSet world.files (pathPush path [Comp.normal p]) [] }) := by
  unfold open_path verify_path
  rw [h]
  rfl

theorem open_path_read_eq (path base : Path) (p : Chars) (world : World)
    (h : pathStartsWith path base = true) :
    open_path path base p false world =
      match assocGet world.openErr (pathPush path [Comp.normal p]) with
      | some os => (Except.error (Error.withCause ErrorKind.readFailed os), world)
      | none =>
        match assocGet world.files (pathPush path [Comp.normal p]) with
        | some _ => (Except.ok (pathPush path [Comp.normal p]), world)
        | none => (Except.error (Error.withCause ErrorKind.readFailed 2), world) := by
  unfold open_path verify_path
  rw [h]
  rfl

theorem open_path_err_kind (path base : Path) (p : Chars) (intent : Bool) (world : World)
    (h : pathStartsWith path base = true) (err : Error)
    (herr : (open_path path base p intent world).1 = Except.error err) :
    (intent = true → err.kind = ErrorKind.writeFailed)
    ∧ (intent = false → err.kind = ErrorKind.readFailed)
    ∧ err.cause.isSome = true := by
  cases intent
  · rw [open_path_read_eq path base p world h] at herr
    rcases ho : assocGet world.openErr (pathPush path [Comp.normal p]) with _ | os
    · rw [ho] at herr
      rcases hf : assocGet world.files (pathPush path [Comp.normal p]) with _ | content
      · rw [hf] at herr
        injection herr with hx
        subst hx
        exact ⟨fun hc => absurd hc (by decide), fun _ => rfl, rfl⟩
      · rw [hf] at herr
        exact Except.noConfusion herr
    · rw [ho] at herr
      injection herr with hx
      subst hx
      exact ⟨fun hc => absurd hc (by decide), fun _ => rfl, rfl⟩
  · rw [open_path_write_eq path base p world h] at herr
    rcases hc : assocGet world.createErr (pathPush path [Comp.normal p]) with _ | os
    · rw [hc] at herr
      exact Except.noConfusion herr
    · rw [hc] at herr
      injection herr with hx
      subst hx
      exact ⟨fun _ => rfl, fun hcon => absurd hcon (by decide), rfl⟩

/-- C4: `open_path` returns `InvalidPath` — with the world untouched —
whenever the controller's `path` does not start with its `base`; when it
does start with `base`, the `InvalidPath` branch is unreachable and any
failure of the subsequent open is a write-failure (write intent) or
read-failure (read intent) error wrapping the underlying OS error. -/
theorem open_path_containment (path base : Path) (p : Chars) (intent : Bool) (world : World) :
    (pathStartsWith path base = false →
      open_path path base p intent world
        = (Except.error (Error.mk' ErrorKind.invalidPath), world))
    ∧ (pathStartsWith path base = true →
      ∀ err : Error, (open_path path base p intent world).1 = Except.error err →
        err.kind ≠ ErrorKind.invalidPath
        ∧ (intent = true → err.kind = ErrorKind.writeFailed ∧ err.cause.isSome = true)
        ∧ (intent = false → err.kind = ErrorKind.readFailed ∧ err.cause.isSome = true)) := by
  refine ⟨fun h => open_path_not_startsWith path base p intent world h, fun h err herr => ?_⟩
  obtain ⟨hw, hr, hc⟩ := open_path_err_kind path base p intent world h err herr
  refine ⟨?_, fun hi => ⟨hw hi, hc⟩, fun hi => ⟨hr hi, hc⟩⟩
  cases intent
  · rw [hr rfl]
    decide
  · rw [hw rfl]
    decide

/-- C4 witness: a controller whose `path` is not under its `base` gets
`InvalidPath` with the world untouched; a contained controller's write
failure is a `WriteFailed` error carrying the OS cause, not `InvalidPath`. -/
theorem open_path_containment_witness :
    (open_path [Comp.normal (str "x")] [Comp.normal (str "y")] (str "f") true emptyWorld
      = (Except.error (Error.mk' ErrorKind.invalidPath), emptyWorld))
    ∧ (Error.withCause ErrorKind.writeFailed 13).kind ≠ ErrorKind.invalidPath := by
  constructor
  · exact (open_path_containment [Comp.normal (str "x")] [Comp.normal (str "y")]
      (str "f") true emptyWorld).1 (by decide)
  · exact ((open_path_containment memC0.path memC0.base (str "memory.limit_in_bytes")
      true memCEWorld).2 (by decide) (Error.withCause ErrorKind.writeFailed 13) (by decide)).1

/-- C10: whether `open_path` fails the containment check is independent of
the relative file-name argument (and of the read/write intent): the check
inspects only the controller's stored `path` and `base`. -/
theorem open_path_containment_independent_of_name (path base : Path) (world : World)
    (p₁ p₂ : Chars) (intent₁ intent₂ : Bool) :
    failsContainment (open_path path base p₁ intent₁ world)
      ↔ failsContainment (open_path path base p₂ intent₂ world) := by
  have key : ∀ (p : Chars) (intent : Bool),
      failsContainment (open_path path base p intent world)
        ↔ pathStartsWith path base = false := by
    intro p intent
    constructor
    · rintro ⟨e, he, hk⟩
      cases hx : pathStartsWith path base
      · rfl
      · obtain ⟨hw, hr, _⟩ := open_path_err_kind path base p intent world hx e he
        cases intent
        · rw [hr rfl] at hk
          exact ErrorKind.noConfusion hk
        · rw [hw rfl] at hk
          exact ErrorKind.noConfusion hk
    · intro h
      exact ⟨Error.mk' ErrorKind.invalidPath,
        by rw [open_path_not_startsWith path base p intent world h], rfl⟩
  exact (key p₁ intent₁).trans (key p₂ intent₂).symm

/-- C3: code bug. Entering a group name made of `..` components keeps the
literal component-prefix check satisfied (`Path::starts_with` does not
resolve `..`), so `verify_path` succeeds and `open_path` happily opens a
file whose resolved directory is NOT a descendant of `base` — no
`InvalidPath` error guards the escape, contradicting the crate's own
`ErrorKind::InvalidPath` documentation. -/
theorem enter_dotdot_escapes_base :
    ∃ c : PidController,
      Subsystem.enter
          (Subsystem.Pid ⟨[Comp.rootDir, Comp.normal (str "sys"), Comp.normal (str "fs"),
              Comp.normal (str "cgroup"), Comp.normal (str "pids")],
            [Comp.rootDir, Comp.normal (str "sys"), Comp.normal (str "fs"),
              Comp.normal (str "cgroup"), Comp.normal (str "pids")]⟩)
          [Comp.parentDir, Comp.parentDir, Comp.normal (str "evil")]
        = Subsystem.Pid c
      ∧ verify_path c.path c.base = Except.ok ()
      ∧ isRealDescendant c.path c.base = false
      ∧ (open_path c.path c.base (str "pids.max") true emptyWorld).1
          = Except.ok (pathPush c.path [Comp.normal (str "pids.max")])
      ∧ isRealDescendant (pathPush c.path [Comp.normal (str "pids.max")]) c.base = false := by
  refine ⟨⟨[Comp.rootDir, Comp.normal (str "sys"), Comp.normal (str "fs"),
      Comp.normal (str "cgroup"), Comp.normal (str "pids")],
    [Comp.rootDir, Comp.normal (str "sys"), Comp.normal (str "fs"),
      Comp.normal (str "cgroup"), Comp.normal (str "pids"),
      Comp.parentDir, Comp.parentDir, Comp.normal (str "evil")]⟩, ?_⟩
  decide

/-- C5: when the resource section relevant to a subsystem has its
update-intent flag unset, that subsystem's `apply` returns `Ok(())` and
leaves the world — in particular every kernel file — unchanged. -/
theorem apply_noop_when_update_unset (s : Subsystem) (res : Resources) (w : World)
    (h : s.updateFlag res = false) :
    s.apply res w = (Except.ok (), w) := by
  cases s <;>
    simp_all [Subsystem.apply, Subsystem.updateFlag, PidController.apply, MemController.apply,
      CpuController.apply, NetClsController.apply, CpuSetController.apply,
      CpuAcctController.apply, DevicesController.apply, FreezerController.apply,
      BlkIoController.apply, PerfEventController.apply, NetPrioController.apply,
      HugeTlbController.apply, RdmaController.apply]

/-- C5 witness: a pids controller with the pid section unflagged applies
as a no-op on the empty world. -/
theorem apply_noop_when_update_unset_witness :
    Subsystem.apply (Subsystem.Pid pidC0) resAllOff emptyWorld = (Except.ok (), emptyWorld) :=
  apply_noop_when_update_unset (Subsystem.Pid pidC0) resAllOff emptyWorld (by decide)

theorem applyList_append (a b : List Subsystem) (res : Resources) (w : World) :
    applyList (a ++ b) res w =
      match applyList a res w with
      | (Except.ok _, w1) => applyList b res w1
      | (Except.error e, w1) => (Except.error e, w1) := by
  induction a generalizing w with
  | nil => rfl
  | cons s rest ih =>
    have hstep : applyList (s :: rest) res w =
        match s.apply res w with
        | (Except.ok _, w1) => applyList rest res w1
        | (Except.error e, w1) => (Except.error e, w1) := rfl
    have hstep' : applyList (s :: rest ++ b) res w =
        match s.apply res w with
        | (Except.ok _, w1) => applyList (rest ++ b) res w1
        | (Except.error e, w1) => (Except.error e, w1) := rfl
    rw [hstep', hstep]
    rcases s.apply res w with ⟨r, w1⟩
    cases r
    · rfl
    · exact ih w1

/-- C1: `Cgroup::apply` is fail-fast, in list order. If every subsystem
before `s` succeeds (producing world `w1`) and `s`'s apply fails with `e`
(producing `w2`), the whole `Cgroup::apply` returns exactly `e` with
final world `w2` — independent of the subsystems after `s`, which are
never invoked. Moreover an `Ok(())` outcome requires, at every split
point of the subsystem list, that the prefix succeeded and the subsystem
at that point succeeded too. -/
theorem cgroup_apply_fail_fast (pre post : List Subsystem) (s : Subsystem)
    (res : Resources) (w w1 w2 : World) (e : Error)
    (hpre : Cgroup.apply ⟨pre⟩ res w = (Except.ok (), w1))
    (hs : s.apply res w1 = (Except.error e, w2)) :
    Cgroup.apply ⟨pre ++ s :: post⟩ res w = (Except.error e, w2)
    ∧ ∀ (pre' : List Subsystem) (s' : Subsystem) (post' : List Subsystem)
        (res' : Resources) (w' : World),
        (Cgroup.apply ⟨pre' ++ s' :: post'⟩ res' w').1 = Except.ok () →
        ∃ wa wb, Cgroup.apply ⟨pre'⟩ res' w' = (Except.ok (), wa)
          ∧ s'.apply res' wa = (Except.ok (), wb) := by
  constructor
  · show applyList (pre ++ s :: post) res w = (Except.error e, w2)
    rw [applyList_append]
    have hpre' : applyList pre res w = (Except.ok (), w1) := hpre
    rw [hpre']
    show (match s.apply res w1 with
          | (Except.ok _, wx) => applyList post res wx
          | (Except.error ex, wx) => (Except.error ex, wx)) = (Except.error e, w2)
    rw [hs]
  · intro pre' s' post' res' w' hok
    have hok' : (applyList (pre' ++ s' :: post') res' w').1 = Except.ok () := hok
    rw [applyList_append] at hok'
    rcases ha : applyList pre' res' w' with ⟨ra, wa⟩
    rw [ha] at hok'
    cases ra with
    | error ea => exact Except.noConfusion hok'
    | ok ua =>
      cases ua
      have hok'' : (match s'.apply res' wa with
          | (Except.ok _, wx) => applyList post' res' wx
          | (Except.error ex, wx) => (Except.error ex, wx)).1 = Except.ok () := hok'
      rcases hb : s'.apply res' wa with ⟨rb, wb⟩
      rw [hb] at hok''
      cases rb with
      | error eb => exact Except.noConfusion hok''
      | ok ub =>
        cases ub
        exact ⟨wa, wb, ha, hb⟩

/-- C1 witness: with subsystems `[freezer, net_cls, pids]` and a resource
specification flagging only the network section, the net_cls apply fails
(its hex-formatted write does not read back as a decimal), and
`Cgroup::apply` returns exactly that error with only the net_cls write
performed — the pids subsystem is never reached. -/
theorem cgroup_apply_fail_fast_witness :
    Cgroup.apply ⟨[Subsystem.Freezer frzC0, Subsystem.NetCls netC0, Subsystem.Pid pidC0]⟩
        resNetClsOn emptyWorld
      = (Except.error (Error.mk' ErrorKind.other),
         ⟨[(netClsFilePath, hexFormat8 1)], [], []⟩) :=
  (cgroup_apply_fail_fast [Subsystem.Freezer frzC0] [Subsystem.Pid pidC0]
    (Subsystem.NetCls netC0) resNetClsOn emptyWorld emptyWorld
    ⟨[(netClsFilePath, hexFormat8 1)], [], []⟩ (Error.mk' ErrorKind.other)
    (by decide) (by decide)).1

theorem pathPush_normal_ne (path : Path) (f g : Chars) (h : f ≠ g) :
    pathPush path [Comp.normal f] ≠ pathPush path [Comp.normal g] := by
  intro he
  have he' : path ++ [Comp.normal f] = path ++ [Comp.normal g] := he
  have hcomp : Comp.normal f = Comp.normal g := by
    have := List.append_cancel_left he'
    exact (List.cons_eq_cons.mp this).1
  injection hcomp with hfg
  exact h hfg

theorem readFileAt_congr (path base : Path) (f : Chars) (w' w : World)
    (hopen : assocGet w'.openErr (pathPush path [Comp.normal f])
      = assocGet w.openErr (pathPush path [Comp.normal f]))
    (hfile : assocGet w'.files (pathPush path [Comp.normal f])
      = assocGet w.files (pathPush path [Comp.normal f])) :
    readFileAt path base f w' = readFileAt path base f w := by
  cases hsw : pathStartsWith path base
  · unfold readFileAt
    rw [open_path_not_startsWith path base f false w hsw,
      open_path_not_startsWith path base f false w' hsw]
  · unfold readFileAt
    rw [open_path_read_eq path base f w hsw, open_path_read_eq path base f w' hsw, hopen]
    rcases ho : assocGet w.openErr (pathPush path [Comp.normal f]) with _ | os
    · rw [hfile]
      rcases hf : assocGet w.files (pathPush path [Comp.normal f]) with _ | content
      · rfl
      · show Except.ok (read_handle (pathPush path [Comp.normal f]) w')
          = Except.ok (read_handle (pathPush path [Comp.normal f]) w)
        unfold read_handle
        rw [hfile]
    · rfl

theorem writeFileAt_preserves_other (path base : Path) (f g content : Chars)
    (hfg : f ≠ g) (w : World) :
    assocGet ((writeFileAt path base g content w).2).files (pathPush path [Comp.normal f])
      = assocGet w.files (pathPush path [Comp.normal f])
    ∧ ((writeFileAt path base g content w).2).openErr = w.openErr := by
  cases hsw : pathStartsWith path base
  · unfold writeFileAt
    rw [open_path_not_startsWith path base g true w hsw]
    exact ⟨rfl, rfl⟩
  · unfold writeFileAt
    rw [open_path_write_eq path base g w hsw]
    rcases hc : assocGet w.createErr (pathPush path [Comp.normal g]) with _ | os
    · have hne : pathPush path [Comp.normal f] ≠ pathPush path [Comp.normal g] :=
        pathPush_normal_ne path f g hfg
      constructor
      · show assocGet (assocSet (assocSet w.files (pathPush path [Comp.normal g]) [])
            (pathPush path [Comp.normal g]) content) (pathPush path [Comp.normal f])
          = assocGet w.files (pathPush path [Comp.normal f])
        rw [assocGet_assocSet_ne _ _ _ _ hne, assocGet_assocSet_ne _ _ _ _ hne]
      · rfl
    · exact ⟨rfl, rfl⟩

theorem readU64At_writeFileAt_ne (path base : Path) (f g content : Chars)
    (hfg : f ≠ g) (w : World) :
    readU64At path base f ((writeFileAt path base g content w).2)
      = readU64At path base f w := by
  obtain ⟨hfile, hopen⟩ := writeFileAt_preserves_other path base f g content hfg w
  unfold readU64At
  rw [readFileAt_congr path base f _ w (by rw [hopen]) hfile]

/-- C2 counterexample: the memory controller's `apply` does NOT read back.
With a world where `memory.limit_in_bytes` holds `0` and writing it fails
with an injected OS error, applying a flagged request for a 1234-byte
hard limit still returns `Ok(())`, although the value read back is `0`,
not the requested `1234`. -/
theorem mem_apply_no_readback :
    (memC0.apply resMemOn memCEWorld).1 = Except.ok ()
    ∧ readU64At memC0.path memC0.base (str "memory.limit_in_bytes")
        (memC0.apply resMemOn memCEWorld).2 = Except.ok 0
    ∧ resMemOn.memory.memory_hard_limit = 1234 := by
  decide

/-- C2 (amended): the pid, cpu and net_cls controllers' `apply` read back
every value they wrote and return `Ok(())` only when each read-back value
equals the requested one (mismatches yield an apply-failure error before
success is reported); the memory controller issues its writes without any
read-back verification and returns `Ok(())` unconditionally. -/
theorem verified_controllers_readback (res : Resources) (w : World) :
    (∀ (c : PidController) (w' : World), res.pid.update_values = true →
        c.apply res w = (Except.ok (), w') →
        c.get_pid_max w' = Except.ok res.pid.maximum_number_of_processes)
    ∧ (∀ (c : CpuController) (w' : World), res.cpu.update_values = true →
        c.apply res w = (Except.ok (), w') →
        c.shares w' = Except.ok res.cpu.shares
        ∧ c.cfs_period w' = Except.ok res.cpu.period
        ∧ c.cfs_quota w' = Except.ok (i64AsU64 res.cpu.quota))
    ∧ (∀ (c : NetClsController) (w' : World), res.network.update_values = true →
        c.apply res w = (Except.ok (), w') →
        c.get_class w' = Except.ok res.network.class_id)
    ∧ (∀ c : MemController, (c.apply res w).1 = Except.ok ()) := by
  refine ⟨?_, ?_, ?_, ?_⟩
  · intro c w' hf happ
    simp only [PidController.apply, hf, if_true] at happ
    split at happ
    · exact Except.noConfusion (congrArg Prod.fst happ)
    · rename_i m heq
      split at happ
      · rename_i hm
        have hw : (c.set_pid_max res.pid.maximum_number_of_processes w).2 = w' :=
          congrArg Prod.snd happ
        rw [← hw, heq, hm]
      · exact Except.noConfusion (congrArg Prod.fst happ)
  · intro c w' hf happ
    simp only [CpuController.apply, hf, if_true] at happ
    have hq_sh : str "cpu.cfs_quota_us" ≠ c.sharesFile := by
      unfold CpuController.sharesFile
      cases c.v2 <;> simp <;> decide
    have hp_sh : str "cpu.cfs_period_us" ≠ c.sharesFile := by
      unfold CpuController.sharesFile
      cases c.v2 <;> simp <;> decide
    have hq_p : str "cpu.cfs_quota_us" ≠ str "cpu.cfs_period_us" := by decide
    split at happ
    · exact Except.noConfusion (congrArg Prod.fst happ)
    · rename_i v1 h1
      split at happ
      · exact Except.noConfusion (congrArg Prod.fst happ)
      · rename_i hv1n
        have hv1 : v1 = res.cpu.shares := not_not.mp hv1n
        split at happ
        · exact Except.noConfusion (congrArg Prod.fst happ)
        · rename_i v2 h2
          split at happ
          · exact Except.noConfusion (congrArg Prod.fst happ)
          · rename_i hv2n
            have hv2 : v2 = res.cpu.period := not_not.mp hv2n
            split at happ
            · exact Except.noConfusion (congrArg Prod.fst happ)
            · rename_i v3 h3
              split at happ
              · exact Except.noConfusion (congrArg Prod.fst happ)
              · rename_i hv3n
                have hv3 : v3 = i64AsU64 res.cpu.quota := not_not.mp hv3n
                have hw : (c.set_cfs_quota (i64AsU64 res.cpu.quota)
                    (c.set_cfs_period res.cpu.period
                      (c.set_shares res.cpu.shares w).2).2).2 = w' :=
                  congrArg Prod.snd happ
                refine ⟨?_, ?_, ?_⟩
                · rw [← hw]
                  show readU64At c.path c.base c.sharesFile _ = _
                  rw [show (c.set_cfs_quota (i64AsU64 res.cpu.quota)
                        (c.set_cfs_period res.cpu.period
                          (c.set_shares res.cpu.shares w).2).2)
                      = writeFileAt c.path c.base (str "cpu.cfs_quota_us")
                          (natChars (i64AsU64 res.cpu.quota))
                          (c.set_cfs_period res.cpu.period
                            (c.set_shares res.cpu.shares w).2).2 from rfl]
                  rw [readU64At_writeFileAt_ne c.path c.base c.sharesFile
                      (str "cpu.cfs_quota_us") _ (fun he => hq_sh he.symm) _]
                  rw [show (c.set_cfs_period res.cpu.period (c.set_shares res.cpu.shares w).2)
                      = writeFileAt c.path c.base (str "cpu.cfs_period_us")
                          (natChars res.cpu.period) (c.set_shares res.cpu.shares w).2 from rfl]
                  rw [readU64At_writeFileAt_ne c.path c.base c.sharesFile
                      (str "cpu.cfs_period_us") _ (fun he => hp_sh he.symm) _]
                  rw [show readU64At c.path c.base c.sharesFile
                        (c.set_shares res.cpu.shares w).2
                      = c.shares (c.set_shares res.cpu.shares w).2 from rfl]
                  rw [h1, hv1]
                · rw [← hw]
                  show readU64At c.path c.base (str "cpu.cfs_period_us") _ = _
                  rw [show (c.set_cfs_quota (i64AsU64 res.cpu.quota)
                        (c.set_cfs_period res.cpu.period
                          (c.set_shares res.cpu.shares w).2).2)
                      = writeFileAt c.path c.base (str "cpu.cfs_quota_us")
                          (natChars (i64AsU64 res.cpu.quota))
                          (c.set_cfs_period res.cpu.period
                            (c.set_shares res.cpu.shares w).2).2 from rfl]
                  rw [readU64At_writeFileAt_ne c.path c.base (str "cpu.cfs_period_us")
                      (str "cpu.cfs_quota_us") _ (fun he => hq_p he.symm) _]
                  rw [show readU64At c.path c.base (str "cpu.cfs_period_us")
                        (c.set_cfs_period res.cpu.period (c.set_shares res.cpu.shares w).2).2
                      = c.cfs_period (c.set_cfs_period res.cpu.period
                          (c.set_shares res.cpu.shares w).2).2 from rfl]
                  rw [h2, hv2]
                · rw [← hw, h3, hv3]
  · intro c w' hf happ
    simp only [NetClsController.apply, hf, if_true] at happ
    split at happ
    · rename_i v hg
      split at happ
      · rename_i hv
        have hw : (c.set_class res.network.class_id w).2 = w' := congrArg Prod.snd happ
        rw [← hw, hg, hv]
      · exact Except.noConfusion (congrArg Prod.fst happ)
    · exact Except.noConfusion (congrArg Prod.fst happ)
  · intro c
    cases hm : res.memory.update_values <;> simp [MemController.apply, hm]

/-- C2 witness: applying `pids.max = 7` on an empty world succeeds, and
the subsequent read-back required by the theorem indeed returns
`Value 7`. -/
theorem verified_controllers_readback_witness :
    PidController.get_pid_max pidC0 ⟨[(pidsMaxPath, intChars 7)], [], []⟩
      = Except.ok (PidMax.Value 7) :=
  (verified_controllers_readback resPidValue7 emptyWorld).1 pidC0
    ⟨[(pidsMaxPath, intChars 7)], [], []⟩ (by decide) (by decide)

/-- C8: writing `pids.max` through `set_pid_max` and reading it back with
`get_pid_max` round-trips, both for `Value n` (any `i64`) and for `Max`,
under the assumptions that the controller path is contained in its base,
the kernel accepts the write unmodified (no injected create/open error;
the modelled kernel returns exactly the bytes written). -/
theorem set_get_pid_max_roundtrip (c : PidController) (n : Int) (w : World)
    (hv : pathStartsWith c.path c.base = true)
    (hc : assocGet w.createErr (pathPush c.path [Comp.normal (str "pids.max")]) = none)
    (ho : assocGet w.openErr (pathPush c.path [Comp.normal (str "pids.max")]) = none)
    (hlo : -(2 ^ 63 : Int) ≤ n) (hhi : n < 2 ^ 63) :
    (∃ w', c.set_pid_max (PidMax.Value n) w = (Except.ok (), w')
       ∧ c.get_pid_max w' = Except.ok (PidMax.Value n))
    ∧ (∃ w', c.set_pid_max PidMax.Max w = (Except.ok (), w')
       ∧ c.get_pid_max w' = Except.ok PidMax.Max) := by
  have hset : ∀ content : Chars,
      writeFileAt c.path c.base (str "pids.max") content w
        = (Except.ok (), { w with files := (assocSet (assocSet w.files
            (pathPush c.path [Comp.normal (str "pids.max")]) [])
            (pathPush c.path [Comp.normal (str "pids.max")]) content) }) := by
    intro content
    unfold writeFileAt
    rw [open_path_write_eq c.path c.base (str "pids.max") w hv, hc]
    rfl
  have hread : ∀ content : Chars,
      readFileAt c.path c.base (str "pids.max")
          { w with files := (assocSet (assocSet w.files
              (pathPush c.path [Comp.normal (str "pids.max")]) [])
              (pathPush c.path [Comp.normal (str "pids.max")]) content) }
        = Except.ok content := by
    intro content
    have ho' : assocGet ({ w with files := (assocSet (assocSet w.files
        (pathPush c.path [Comp.normal (str "pids.max")]) [])
        (pathPush c.path [Comp.normal (str "pids.max")]) content) } : World).openErr
        (pathPush c.path [Comp.normal (str "pids.max")]) = none := ho
    have hf' : assocGet ({ w with files := (assocSet (assocSet w.files
        (pathPush c.path [Comp.normal (str "pids.max")]) [])
        (pathPush c.path [Comp.normal (str "pids.max")]) content) } : World).files
        (pathPush c.path [Comp.normal (str "pids.max")]) = some content := by
      show assocGet (assocSet (assocSet w.files
          (pathPush c.path [Comp.normal (str "pids.max")]) [])
          (pathPush c.path [Comp.normal (str "pids.max")]) content)
          (pathPush c.path [Comp.normal (str "pids.max")]) = some content
      exact assocGet_assocSet_self _ _ _
    unfold readFileAt
    rw [open_path_read_eq _ _ _ _ hv, ho', hf']
    show Except.ok (read_handle (pathPush c.path [Comp.normal (str "pids.max")]) _)
      = Except.ok content
    unfold read_handle
    rw [hf']
    rfl
  constructor
  · refine ⟨_, hset (intChars n), ?_⟩
    unfold PidController.get_pid_max
    rw [hread (intChars n)]
    show (if trimChars (intChars n) = str "max" then Except.ok PidMax.Max
      else match parseI64? (trimChars (intChars n)) with
        | some v => Except.ok (PidMax.Value v)
        | none => Except.error (Error.mk' ErrorKind.parseError)) = Except.ok (PidMax.Value n)
    rw [trimChars_eq_self _ (intChars_not_ws n)]
    rw [if_neg (intChars_ne_max n)]
    rw [parseI64_intChars n hlo hhi]
  · refine ⟨_, hset (str "max"), ?_⟩
    unfold PidController.get_pid_max
    rw [hread (str "max")]
    show (if trimChars (str "max") = str "max" then Except.ok PidMax.Max
      else match parseI64? (trimChars (str "max")) with
        | some v => Except.ok (PidMax.Value v)
        | none => Except.error (Error.mk' ErrorKind.parseError)) = Except.ok PidMax.Max
    rw [if_pos (by decide)]

/-- C8 witness: round-trip at `Value 1337` and `Max` on a concrete pids
controller over the empty world. -/
theorem set_get_pid_max_roundtrip_witness :
    (∃ w', pidC0.set_pid_max (PidMax.Value 1337) emptyWorld = (Except.ok (), w')
       ∧ pidC0.get_pid_max w' = Except.ok (PidMax.Value 1337))
    ∧ (∃ w', pidC0.set_pid_max PidMax.Max emptyWorld = (Except.ok (), w')
       ∧ pidC0.get_pid_max w' = Except.ok PidMax.Max) :=
  set_get_pid_max_roundtrip pidC0 1337 emptyWorld (by decide) (by decide) (by decide)
    (by decide) (by decide)

theorem mem_dedupAdj : ∀ (l : List Nat) (x : Nat), x ∈ dedupAdj l ↔ x ∈ l
  | [], x => by simp [dedupAdj]
  | [a], x => by simp [dedupAdj]
  | a :: b :: rest, x => by
    by_cases h : a = b
    · rw [show dedupAdj (a :: b :: rest) = dedupAdj (b :: rest) from by simp [dedupAdj, h]]
      rw [mem_dedupAdj (b :: rest) x]
      subst h
      simp [List.mem_cons]
    · rw [show dedupAdj (a :: b :: rest) = a :: dedupAdj (b :: rest) from by simp [dedupAdj, h]]
      simp [List.mem_cons, mem_dedupAdj (b :: rest) x]

theorem dedupAdj_pairwise : ∀ l : List Nat,
    l.Sorted (· ≤ ·) → (dedupAdj l).Pairwise (· < ·)
  | [], _ => by simp [dedupAdj]
  | [a], _ => by simp [dedupAdj]
  | a :: b :: rest, hs => by
    have hab : a ≤ b := (List.sorted_cons.mp hs).1 b (by simp)
    have hs' : (b :: rest).Sorted (· ≤ ·) := (List.sorted_cons.mp hs).2
    by_cases h : a = b
    · rw [show dedupAdj (a :: b :: rest) = dedupAdj (b :: rest) from by simp [dedupAdj, h]]
      exact dedupAdj_pairwise (b :: rest) hs'
    · rw [show dedupAdj (a :: b :: rest) = a :: dedupAdj (b :: rest) from by simp [dedupAdj, h]]
      refine List.Pairwise.cons ?_ (dedupAdj_pairwise (b :: rest) hs')
      intro y hy
      have hyy : y ∈ b :: rest := (mem_dedupAdj (b :: rest) y).mp hy
      have hby : b ≤ y := by
        rcases List.mem_cons.mp hyy with rfl | hyr
        · exact le_refl y
        · exact (List.sorted_cons.mp hs').1 y hyr
      omega

theorem mem_tasks_fold (w : World) : ∀ (subs : List Subsystem) (acc : List Nat) (p : Nat),
    p ∈ subs.foldl (fun acc s => acc ++ s.tasks w) acc
      ↔ p ∈ acc ∨ ∃ s ∈ subs, p ∈ s.tasks w
  | [], acc, p => by simp
  | s :: rest, acc, p => by
    simp only [List.foldl_cons]
    rw [mem_tasks_fold w rest (acc ++ s.tasks w) p]
    simp only [List.mem_append, List.mem_cons]
    constructor
    · rintro ((hp | hp) | ⟨x, hx, hpx⟩)
      · exact Or.inl hp
      · exact Or.inr ⟨s, Or.inl rfl, hp⟩
      · exact Or.inr ⟨x, Or.inr hx, hpx⟩
    · rintro (hp | ⟨x, (rfl | hx), hpx⟩)
      · exact Or.inl (Or.inl hp)
      · exact Or.inl (Or.inr hpx)
      · exact Or.inr ⟨x, hx, hpx⟩

/-- C6: `Cgroup::tasks` returns a strictly increasing (hence ascending and
duplicate-free) list whose members are exactly the pids reported by at
least one of the group's subsystem controllers. -/
theorem cgroup_tasks_sorted_dedup_union (cg : Cgroup) (w : World) :
    List.Pairwise (· < ·) (cg.tasks w)
    ∧ ∀ p : Nat, p ∈ cg.tasks w ↔ ∃ s ∈ cg.subsystems, p ∈ s.tasks w := by
  constructor
  · show (dedupAdj (List.insertionSort (· ≤ ·)
        (cg.subsystems.foldl (fun acc s => acc ++ s.tasks w) []))).Pairwise (· < ·)
    exact dedupAdj_pairwise _ (List.sorted_insertionSort (· ≤ ·) _)
  · intro p
    show p ∈ dedupAdj (List.insertionSort (· ≤ ·)
        (cg.subsystems.foldl (fun acc s => acc ++ s.tasks w) [])) ↔ _
    rw [mem_dedupAdj]
    rw [(List.perm_insertionSort (· ≤ ·)
      (cg.subsystems.foldl (fun acc s => acc ++ s.tasks w) [])).mem_iff]
    rw [mem_tasks_fold w cg.subsystems [] p]
    simp

theorem findTag_some (t : Controllers) : ∀ (l : List Subsystem) (s : Subsystem),
    findTag t l = some s →
    s.controlType = t ∧ ∃ pre post, l = pre ++ s :: post ∧ ∀ x ∈ pre, x.controlType ≠ t
  | [], s => by simp [findTag]
  | a :: rest, s => by
    intro h
    unfold findTag at h
    by_cases ha : a.controlType = t
    · rw [if_pos ha] at h
      injection h with h
      subst h
      exact ⟨ha, [], rest, rfl, by simp⟩
    · rw [if_neg ha] at h
      obtain ⟨hct, pre, post, hl, hpre⟩ := findTag_some t rest s h
      refine ⟨hct, a :: pre, post, by rw [hl]; rfl, ?_⟩
      intro x hx
      rcases List.mem_cons.mp hx with rfl | hxp
      · exact ha
      · exact hpre x hxp

theorem findTag_none (t : Controllers) : ∀ l : List Subsystem,
    findTag t l = none ↔ ∀ x ∈ l, x.controlType ≠ t
  | [] => by simp [findTag]
  | a :: rest => by
    unfold findTag
    by_cases ha : a.controlType = t
    · simp [ha]
    · simp [ha, findTag_none t rest]

theorem controller_of_total {T : Type} (cg : Cgroup) (tag : Controllers)
    (conv : Subsystem → Option T)
    (hconv : ∀ s : Subsystem, s.controlType = tag → (conv s).isSome = true) :
    ∀ r, cg.controller_of tag conv = some r → r.isSome = true := by
  intro r h
  unfold Cgroup.controller_of at h
  rcases hf : findTag tag cg.subsystems with _ | s
  · rw [hf] at h
    exact Option.noConfusion h
  · rw [hf] at h
    injection h with h
    subst h
    exact hconv s (findTag_some tag cg.subsystems s hf).1

/-- C7: `controller_of::<T>` finds the FIRST subsystem variant whose tag
equals `T`'s controller type, returns `None` exactly when no variant's
tag matches, and the `From<&Subsystem>` narrowing conversion invoked on a
found variant can never reach its unsafe type-confusion fallback (the
inner option is always `some`), for each of the 13 controller types. -/
theorem controller_of_first_match_safe (cg : Cgroup) :
    (∀ (t : Controllers) (s : Subsystem), findTag t cg.subsystems = some s →
      s.controlType = t
      ∧ ∃ pre post, cg.subsystems = pre ++ s :: post ∧ ∀ x ∈ pre, x.controlType ≠ t)
    ∧ (∀ t : Controllers, findTag t cg.subsystems = none ↔
        ∀ x ∈ cg.subsystems, x.controlType ≠ t)
    ∧ (∀ r, cg.controller_of Controllers.Pids pidFrom? = some r → r.isSome = true)
    ∧ (∀ r, cg.controller_of Controllers.Mem memFrom? = some r → r.isSome = true)
    ∧ (∀ r, cg.controller_of Controllers.CpuSet cpuSetFrom? = some r → r.isSome = true)
    ∧ (∀ r, cg.controller_of Controllers.CpuAcct cpuAcctFrom? = some r → r.isSome = true)
    ∧ (∀ r, cg.controller_of Controllers.Cpu cpuFrom? = some r → r.isSome = true)
    ∧ (∀ r, cg.controller_of Controllers.Devices devicesFrom? = some r → r.isSome = true)
    ∧ (∀ r, cg.controller_of Controllers.Freezer freezerFrom? = some r → r.isSome = true)
    ∧ (∀ r, cg.controller_of Controllers.NetCls netClsFrom? = some r → r.isSome = true)
    ∧ (∀ r, cg.controller_of Controllers.BlkIo blkIoFrom? = some r → r.isSome = true)
    ∧ (∀ r, cg.controller_of Controllers.PerfEvent perfEventFrom? = some r → r.isSome = true)
    ∧ (∀ r, cg.controller_of Controllers.NetPrio netPrioFrom? = some r → r.isSome = true)
    ∧ (∀ r, cg.controller_of Controllers.HugeTlb hugeTlbFrom? = some r → r.isSome = true)
    ∧ (∀ r, cg.controller_of Controllers.Rdma rdmaFrom? = some r → r.isSome = true) := by
  refine ⟨fun t s h => findTag_some t cg.subsystems s h,
    fun t => findTag_none t cg.subsystems, ?_, ?_, ?_, ?_, ?_, ?_, ?_, ?_, ?_, ?_, ?_, ?_, ?_⟩
  all_goals
    apply controller_of_total
    intro s hs
    cases s <;> simp_all [Subsystem.controlType, pidFrom?, memFrom?, cpuSetFrom?,
      cpuAcctFrom?, cpuFrom?, devicesFrom?, freezerFrom?, netClsFrom?, blkIoFrom?,
      perfEventFrom?, netPrioFrom?, hugeTlbFrom?, rdmaFrom?]

/-- C7 witness: in a group holding `[Mem, Pid]`, looking up the pids tag
finds the pid variant (whose tag matches, with the mem variant before it
not matching), and the narrowing conversion yields `some`. -/
theorem controller_of_first_match_safe_witness :
    Subsystem.controlType (Subsystem.Pid pidC0) = Controllers.Pids
    ∧ (some pidC0).isSome = true := by
  constructor
  · exact ((controller_of_first_match_safe ⟨[Subsystem.Mem memC0, Subsystem.Pid pidC0]⟩).1
      Controllers.Pids (Subsystem.Pid pidC0) (by decide)).1
  · exact (controller_of_first_match_safe ⟨[Subsystem.Mem memC0, Subsystem.Pid pidC0]⟩).2.2.1
      (some pidC0) (by decide)

theorem fromChar_isSome (oc : Option Char) :
    (DeviceType.fromChar? oc).isSome
      = match oc with
        | some c => c = 'a' || c = 'b' || c = 'c'
        | none => false := by
  rcases oc with _ | c
  · rfl
  · by_cases ha : c = 'a'
    · subst ha; rfl
    · by_cases hb : c = 'b'
      · subst hb; rfl
      · by_cases hcc : c = 'c'
        · subst hcc; rfl
        · have hnone : DeviceType.fromChar? (some c) = none := by
            unfold DeviceType.fromChar?
            split
            · rename_i heq
              injection heq with hx
              exact absurd hx ha
            · rename_i heq
              injection heq with hx
              exact absurd hx hcc
            · rename_i heq
              injection heq with hx
              exact absurd hx hb
            · rfl
          rw [hnone]
          show false = (decide (c = 'a') || decide (c = 'b') || decide (c = 'c'))
          simp [ha, hb, hcc]

theorem starParse_isSome (x : Chars) :
    (match parseI64? x with
      | some v => some v
      | none => if x = ['*'] then some (-1 : Int) else none).isSome
      = (decide (x = ['*']) || (parseI64? x).isSome) := by
  rcases hp : parseI64? x with _ | v
  · by_cases hx : x = ['*'] <;> simp [hx]
  · simp

theorem devTriple_isSome (dt : Option DeviceType) (ma mi : Option Int) (perm : Chars) :
    (match dt, ma, mi with
      | some t, some a, some b =>
        if DevicePermissions.isValid perm = true
        then some (⟨true, t, a, b, DevicePermissions.fromChars perm⟩ : DeviceResource)
        else none
      | _, _, _ => none).isSome
      = (dt.isSome && ma.isSome && mi.isSome && DevicePermissions.isValid perm) := by
  rcases dt with _ | t <;> rcases ma with _ | a <;> rcases mi with _ | b <;>
    by_cases hp : DevicePermissions.isValid perm <;> simp [hp]

theorem starMatch_isSome (o : Option Int) (x : Chars) :
    (match o with
      | some v => some v
      | none => if x = ['*'] then some (-1 : Int) else none).isSome
      = (o.isSome || decide (x = ['*'])) := by
  rcases o with _ | v
  · by_cases hx : x = ['*'] <;> simp [hx]
  · simp

theorem parseDevLine_isSome_iff (line : Chars) :
    (parseDevLine line).isSome = devLineWellFormed line := by
  unfold parseDevLine devLineWellFormed
  dsimp only
  by_cases hl : (splitSep (fun c => decide (c = ' ') || decide (c = ':')) line).length = 4
  case neg =>
    rw [if_pos (by simp [hl]),
      show (decide ((splitSep (fun c => decide (c = ' ') || decide (c = ':')) line).length = 4))
        = false from by simp [hl]]
    rfl
  case pos =>
    rw [if_neg (by simp [hl]),
      show (decide ((splitSep (fun c => decide (c = ' ') || decide (c = ':')) line).length = 4))
        = true from by simp [hl]]
    rw [devTriple_isSome, starMatch_isSome, starMatch_isSome, fromChar_isSome]
    simp [Bool.or_comm]

theorem devFold_error (lines : List Chars) (e : Error) :
    lines.foldl devStep (Except.error e) = Except.error e := by
  induction lines with
  | nil => rfl
  | cons l rest ih =>
    simp only [List.foldl_cons, devStep]
    exact ih

theorem devFold_ok : ∀ (lines : List Chars) (acc : List DeviceResource),
    (∀ l ∈ lines, (parseDevLine l).isSome = true) →
    lines.foldl devStep (Except.ok acc)
      = Except.ok (acc ++ lines.filterMap parseDevLine)
  | [], acc, _ => by simp
  | l :: rest, acc, h => by
    have hl : (parseDevLine l).isSome = true := h l (by simp)
    rcases hp : parseDevLine l with _ | r
    · rw [hp] at hl
      exact absurd hl (by simp)
    · simp only [List.foldl_cons, devStep, hp, List.filterMap_cons]
      rw [devFold_ok rest (acc ++ [r]) (fun x hx => h x (by simp [hx]))]
      simp

theorem devFold_bad : ∀ (lines : List Chars) (acc : List DeviceResource),
    (∃ l ∈ lines, parseDevLine l = none) →
    lines.foldl devStep (Except.ok acc) = Except.error (Error.mk' ErrorKind.parseError)
  | [], acc, h => by simp at h
  | l :: rest, acc, h => by
    rcases hp : parseDevLine l with _ | r
    · simp only [List.foldl_cons, devStep, hp]
      exact devFold_error rest _
    · simp only [List.foldl_cons, devStep, hp]
      apply devFold_bad rest
      rcases h with ⟨x, hx, hxn⟩
      rcases List.mem_cons.mp hx with rfl | hxr
      · rw [hp] at hxn
        exact Option.noConfusion hxn
      · exact ⟨x, hxr, hxn⟩

theorem filterMap_length_all_some {α β : Type} (f : α → Option β) :
    ∀ l : List α, (∀ x ∈ l, (f x).isSome = true) → (l.filterMap f).length = l.length
  | [], _ => rfl
  | x :: rest, h => by
    have hx : (f x).isSome = true := h x (by simp)
    rcases hf : f x with _ | y
    · rw [hf] at hx
      exact absurd hx (by simp)
    · simp only [List.filterMap_cons, hf, List.length_cons]
      rw [filterMap_length_all_some f rest (fun z hz => h z (by simp [hz]))]

theorem parseDevLine_allow (line : Chars) (r : DeviceResource)
    (h : parseDevLine line = some r) : r.allow = true := by
  unfold parseDevLine at h
  dsimp only at h
  split at h
  · exact Option.noConfusion h
  · split at h
    · split at h
      · injection h with h
        subst h
        rfl
      · exact Option.noConfusion h
    · exact Option.noConfusion h

/-- C9 counterexample: the line `cx 1:3 r` does not match the
`<type> <major>:<minor> <perms>` form (its type field is the two
characters `cx`), yet the parser behind `allowed_devices` accepts the
whole read and returns a char-device rule — only the first character of
the type field is inspected. -/
theorem devices_parse_accepts_junk_type :
    devListParse (str "cx 1:3 r")
      = Except.ok [⟨true, DeviceType.Char, 1, 3, [DevicePermissions.Read]⟩] := by
  decide

/-- C9 (amended): the device-list parse fails the ENTIRE read with a
`ParseError` as soon as any line falls outside the (relaxed) form — four
space/colon-separated fields, a type field whose FIRST character is
`a`/`b`/`c` (trailing characters ignored), `*`-or-signed-decimal major
and minor, nonempty `rwm` permissions — and on success returns exactly
one `DeviceResource` per line, each with `allow = true`; a line parses
precisely when it is in that relaxed form. -/
theorem allowed_devices_strict (s : Chars) :
    ((∃ line ∈ linesOf s, devLineWellFormed line = false) →
      devListParse s = Except.error (Error.mk' ErrorKind.parseError))
    ∧ (∀ rs, devListParse s = Except.ok rs →
        rs.length = (linesOf s).length ∧ ∀ r ∈ rs, r.allow = true)
    ∧ (∀ line : Chars, (parseDevLine line).isSome = devLineWellFormed line) := by
  refine ⟨?_, ?_, fun line => parseDevLine_isSome_iff line⟩
  · rintro ⟨line, hline, hbad⟩
    unfold devListParse
    apply devFold_bad
    refine ⟨line, hline, ?_⟩
    have hiff := parseDevLine_isSome_iff line
    rw [hbad] at hiff
    rcases hp : parseDevLine line with _ | r
    · rfl
    · rw [hp] at hiff
      exact absurd hiff (by simp)
  · intro rs h
    unfold devListParse at h
    by_cases hall : ∀ l ∈ linesOf s, (parseDevLine l).isSome = true
    · rw [devFold_ok (linesOf s) [] hall] at h
      injection h with h
      subst h
      constructor
      · simp [filterMap_length_all_some parseDevLine (linesOf s) hall]
      · intro r hr
        have hr' : r ∈ (linesOf s).filterMap parseDevLine := by simpa using hr
        obtain ⟨line, _, hp⟩ := List.mem_filterMap.mp hr'
        exact parseDevLine_allow line r hp
    · push_neg at hall
      obtain ⟨l, hl, hlno⟩ := hall
      rw [devFold_bad (linesOf s) [] ⟨l, hl, Option.not_isSome_iff_eq_none.mp (by
        intro hc
        exact hlno hc)⟩] at h
      exact Except.noConfusion h

/-- C9 witness: a line with an invalid permission character fails the
whole read with a `ParseError`. -/
theorem allowed_devices_strict_witness :
    devListParse (str "c 1:3 q") = Except.error (Error.mk' ErrorKind.parseError) :=
  (allowed_devices_strict (str "c 1:3 q")).1 ⟨str "c 1:3 q", by decide, by decide⟩

end CgroupsRs
